import Mathlib

/-!
# Sana-Care: a shallow embedding of the single-page client

The repository is the React client of a staffing and payroll application.  Each page
component is embedded as

* a record for its `useState` cells,
* one function per handler, named as in the source, that maps the settled HTTP response
  to the next state, and
* one function per rendered control that lists the requests wired to it.

HTTP requests are kept structured (method, path segments, query, body) instead of being
flattened into a URL string.  Numbers are exact: a finite JavaScript number is a rational.
The REST server is not part of the sources; the handlers it needs are modelled from the
written specification and are marked as such.
-/

namespace SanaCare

/-! ## JavaScript values -/

/-- A JavaScript number: `NaN`, one of the infinities, or a finite value. -/
inductive JSNumber where
  | nan
  | posInf
  | negInf
  | fin (q : ℚ)
deriving DecidableEq

/-- The comparison `x > 0` on JavaScript numbers (false for `NaN`). -/
def JSNumber.gtZero (x : JSNumber) : Bool :=
  match x with
  | .fin q => decide (0 < q)
  | .posInf => true
  | _ => false

/-- The comparison `x < 0` on JavaScript numbers (false for `NaN`). -/
def JSNumber.ltZero (x : JSNumber) : Bool :=
  match x with
  | .fin q => decide (q < 0)
  | .negInf => true
  | _ => false

/-- The values that occur in request payloads. -/
inductive JSValue where
  | str (s : String)
  | num (n : JSNumber)
deriving DecidableEq

/-- An object: its own properties in insertion order. -/
abbrev JSObject := List (String × JSValue)

/-- The form objects of the pages hold strings only (`e.target.value`). -/
abbrev FormData := List (String × String)

/-- Property read `o[k]`; `none` stands for `undefined`. -/
def getProp {α : Type} (o : List (String × α)) (k : String) : Option α :=
  match o with
  | [] => none
  | (k', v) :: rest => if k' = k then some v else getProp rest k

/-- Property write as done by `{ ...o, k: v }`: an existing key keeps its place. -/
def setProp {α : Type} (o : List (String × α)) (k : String) (v : α) : List (String × α) :=
  match o with
  | [] => [(k, v)]
  | (k', v') :: rest => if k' = k then (k, v) :: rest else (k', v') :: setProp rest k v

/-- The own keys of an object. -/
def keys {α : Type} (o : List (String × α)) : List String := o.map Prod.fst

/-- Argument conversion of a string-valued property: `undefined` prints as "undefined". -/
def propString (o : FormData) (k : String) : String := (getProp o k).getD "undefined"

/-! ## Entities of the REST API -/

/-- A user record as the API returns it.  The phone and the photo may be absent. -/
structure User where
  id : String
  first_name : String
  last_name : String
  email : String
  role : String
  status : String
  phone : Option String := none
  photo : Option String := none
deriving DecidableEq

/-- A partner institution. -/
structure Institution where
  id : String
  name : String
deriving DecidableEq

/-- A worked shift with its amounts and status. -/
structure Shift where
  id : String
  user_id : String
  institution_id : String
  date : String
  hours : ℚ
  hourly_rate : ℚ
  travel_cost : ℚ
  total : ℚ
  status : String
deriving DecidableEq

/-- A proposal to hand a shift over to another user. -/
structure Exchange where
  id : String
  shift_id : String
  from_user_id : String
  to_user_id : String
  status : String
  created_at : String
deriving DecidableEq

/-- A payslip: the included shift ids and the three amounts. -/
structure Payslip where
  id : String
  user_id : String
  period : String
  shifts : List String
  gross_total : ℚ
  commission : ℚ
  net_total : ℚ
deriving DecidableEq

/-- The error taxonomy of the API. -/
inductive ApiError where
  | validationError
  | permissionDenied
  | notFound
  | conflict
deriving DecidableEq

/-- An axios call: method, path below the API prefix, query string, JSON body. -/
structure Request where
  method : String
  path : List String
  query : List (String × String)
  body : Option JSObject
deriving DecidableEq

/-! ## The REST server, modelled from the specification -/

/-- Modelled from the spec: the entities the absent server persists (section 3). -/
structure ServerState where
  users : List User
  shifts : List Shift
  exchanges : List Exchange
  payslips : List Payslip
deriving DecidableEq

/-- Modelled from the spec: rounding of a currency amount to two decimals, which the absent
server applies to totals and commissions ("to two-decimal rounding", "round(x, 2)").  Ties
go up; the spec names no tie rule. -/
def round2 (q : ℚ) : ℚ := (round (q * 100) : ℤ) / 100

/-- Modelled from the spec: how the absent server reads a numeric field of a JSON body.
`NaN` and the infinities are serialised as `null`, so only finite numbers arrive. -/
def jsonNumber (v : Option JSValue) : Option ℚ :=
  match v with
  | some (.num (.fin q)) => some q
  | _ => none

/-- Modelled from the spec: how the absent server reads a string field of a JSON body. -/
def jsonString (v : Option JSValue) : Option String :=
  match v with
  | some (.str s) => some s
  | _ => none

namespace Server

/-- Modelled from the spec: the create-shift handler (`POST /shifts`), absent from the
sources.  "Create shift: validates hours>0, hourly_rate≥0, travel_cost≥0; computes total
server-side; initial status=pending"; a missing or malformed field is a validation error. -/
def createShift (st : ServerState) (newId : String) (body : JSObject) :
    Except ApiError ServerState :=
  match jsonString (getProp body "user_id"), jsonString (getProp body "institution_id"),
      jsonString (getProp body "date"), jsonNumber (getProp body "hours"),
      jsonNumber (getProp body "hourly_rate"), jsonNumber (getProp body "travel_cost") with
  | some uid, some iid, some date, some hours, some rate, some travel =>
    if 0 < hours ∧ 0 ≤ rate ∧ 0 ≤ travel then
      .ok { st with shifts := (st.shifts ++
        [{ id := newId, user_id := uid, institution_id := iid, date := date, hours := hours,
           hourly_rate := rate, travel_cost := travel,
           total := round2 (hours * rate + travel), status := "pending" }]) }
    else .error .validationError
  | _, _, _, _, _, _ => .error .validationError

/-- Modelled from the spec: the shift status handler (`PATCH /shifts/{id}/status`), absent
from the sources.  "Update status: admin transitions pending→validated"; any other
transition is a conflict. -/
def updateShiftStatus (st : ServerState) (caller : User) (shiftId status : String) :
    Except ApiError ServerState :=
  if caller.role ≠ "admin" then .error .permissionDenied
  else match st.shifts.find? (fun sh => sh.id == shiftId) with
    | none => .error .notFound
    | some sh =>
      if sh.status = "pending" ∧ status = "validated" then
        .ok { st with shifts := (st.shifts.map
          (fun x => if x.id = shiftId then { x with status := "validated" } else x)) }
      else .error .conflict

/-- Modelled from the spec: a calendar date "YYYY-MM-DD" falls within the period
"YYYY-MM" when its year and month are those of the period. -/
def inPeriod (date period : String) : Bool := date.toList.take 7 == period.toList

/-- Modelled from the spec: the shifts a payslip aggregates, "shifts for that user where
status=validated and shift.date falls within period". -/
def eligible (userId period : String) (sh : Shift) : Bool :=
  sh.user_id == userId && sh.status == "validated" && inPeriod sh.date period

/-- Modelled from the spec: the payslip generator (`POST /payslips/generate`), absent from
the sources.  "gross_total = sum(total); commission = gross_total × 0.07; net_total =
gross_total − commission; persist payslip; flip selected shifts to paid.  Fails with
validation-error if no eligible shifts found"; the commission is rounded to two decimals
and payslips are created on admin request. -/
def generatePayslip (st : ServerState) (caller : User) (newId userId period : String) :
    Except ApiError (ServerState × Payslip) :=
  if caller.role ≠ "admin" then .error .permissionDenied
  else
    let selected := st.shifts.filter (eligible userId period)
    if selected = [] then .error .validationError
    else
      let gross := (selected.map (fun sh => sh.total)).sum
      let commission := round2 (gross * 7 / 100)
      let p : Payslip :=
        { id := newId, user_id := userId, period := period,
          shifts := selected.map (fun sh => sh.id), gross_total := gross,
          commission := commission, net_total := gross - commission }
      .ok ({ st with
              payslips := st.payslips ++ [p],
              shifts := (st.shifts.map
                (fun sh => if eligible userId period sh then { sh with status := "paid" } else sh)) },
           p)

/-- Modelled from the spec: the propose-exchange handler (`POST /exchanges`), absent from
the sources.  The caller is the source user and must own the shift; "to_user_id must differ
from from_user_id; creation fails otherwise"; the exchange starts pending. -/
def createExchange (st : ServerState) (caller : User) (newId now : String) (body : JSObject) :
    Except ApiError ServerState :=
  match jsonString (getProp body "shift_id"), jsonString (getProp body "to_user_id") with
  | some shiftId, some toUserId =>
    if toUserId = caller.id then .error .validationError
    else match st.shifts.find? (fun sh => sh.id == shiftId) with
      | none => .error .notFound
      | some sh =>
        if sh.user_id ≠ caller.id then .error .permissionDenied
        else .ok { st with exchanges := (st.exchanges ++
          [{ id := newId, shift_id := shiftId, from_user_id := caller.id,
             to_user_id := toUserId, status := "pending", created_at := now }]) }
  | _, _ => .error .validationError

/-- Modelled from the spec: the resolve-exchange handler (`PATCH /exchanges/{id}`), absent
from the sources.  "only the target user may accept or reject a pending exchange; accepting
reassigns the shift's owning user to the target"; resolving twice is a conflict. -/
def resolveExchange (st : ServerState) (caller : User) (exchangeId status : String) :
    Except ApiError ServerState :=
  match st.exchanges.find? (fun e => e.id == exchangeId) with
  | none => .error .notFound
  | some e =>
    if status ≠ "accepted" ∧ status ≠ "rejected" then .error .validationError
    else if e.to_user_id ≠ caller.id then .error .permissionDenied
    else if e.status ≠ "pending" then .error .conflict
    else .ok { st with
      exchanges := (st.exchanges.map
        (fun x => if x.id = exchangeId then { x with status := status } else x)),
      shifts := (if status = "accepted" then
          st.shifts.map
            (fun sh => if sh.id = e.shift_id then { sh with user_id := e.to_user_id } else sh)
        else st.shifts) }

/-- Modelled from the spec: routing of the mutating endpoints used by the pages below.
`newId` and `now` are the identifier and timestamp the server would generate. -/
def handle (st : ServerState) (caller : User) (newId now : String) (req : Request) :
    Except ApiError ServerState :=
  match req.method, req.path with
  | "POST", ["shifts"] => createShift st newId (req.body.getD [])
  | "PATCH", ["shifts", shiftId, "status"] =>
    match getProp req.query "status" with
    | some status => updateShiftStatus st caller shiftId status
    | none => .error .validationError
  | "POST", ["payslips", "generate"] =>
    match getProp req.query "user_id", getProp req.query "period" with
    | some userId, some period =>
      (generatePayslip st caller newId userId period).map Prod.fst
    | _, _ => .error .validationError
  | "POST", ["exchanges"] => createExchange st caller newId now (req.body.getD [])
  | "PATCH", ["exchanges", exchangeId] =>
    match getProp req.query "status" with
    | some status => resolveExchange st caller exchangeId status
    | none => .error .validationError
  | _, _ => .error .notFound

/-- Modelled from the spec: the state after a request and the response the client sees.  A
failed request surfaces as an error and leaves the persisted entities as they were
(section 7). -/
def respond (st : ServerState) (caller : User) (newId now : String) (req : Request) :
    ServerState × Except ApiError Unit :=
  match handle st caller newId now req with
  | .ok st' => (st', .ok ())
  | .error e => (st, .error e)

/-- Modelled from the spec: a store with no shift, exchange or payslip yet. -/
def fresh (users : List User) : ServerState :=
  { users := users, shifts := [], exchanges := [], payslips := [] }

/-- Modelled from the spec: the stores that arise from a fresh one by handling requests of
any caller. -/
inductive Reachable : ServerState → Prop where
  | start (users : List User) : Reachable (fresh users)
  | request {st st1 : ServerState} (caller : User) (newId now : String) (req : Request) :
      Reachable st → handle st caller newId now req = .ok st1 → Reachable st1

end Server

/-! ## ShiftsPage.js -/

namespace ShiftsPage

/-- The `useState` cells of `ShiftsPage`. -/
structure State where
  shifts : List Shift
  institutions : List Institution
  users : List User
  loading : Bool
  dialogOpen : Bool
  formData : FormData
deriving DecidableEq

/-- The object literal the form starts from and is reset to after a successful submit. -/
def emptyForm (user : User) : FormData :=
  [("user_id", user.id), ("institution_id", ""), ("date", ""), ("hours", ""),
   ("hourly_rate", ""), ("travel_cost", "0")]

/-- The initial values of the `useState` cells. -/
def init (user : User) : State :=
  { shifts := [], institutions := [], users := [], loading := true, dialogOpen := false,
    formData := emptyForm user }

/-- The handler `fetchShifts`, given the settled `GET /shifts`. -/
def fetchShifts (s : State) (res : Except ApiError (List Shift)) : State :=
  match res with
  | .ok data => { s with shifts := data, loading := false }
  | .error _ => { s with loading := false }

/-- The handler `fetchInstitutions`, given the settled `GET /institutions`. -/
def fetchInstitutions (s : State) (res : Except ApiError (List Institution)) : State :=
  match res with
  | .ok data => { s with institutions := data }
  | .error _ => s

/-- The handler `fetchUsers`, given the settled `GET /users`. -/
def fetchUsers (s : State) (res : Except ApiError (List User)) : State :=
  match res with
  | .ok data => { s with users := (data.filter (fun u => u.status == "approved")) }
  | .error _ => s

/-- The `onChange` of a form control: `setFormData({ ...formData, [field]: value })`. -/
def onChange (s : State) (field value : String) : State :=
  { s with formData := setProp s.formData field value }

/-- The body `handleSubmit` posts: the form object with the three amounts replaced by their
`parseFloat`.  `parseFloat` is the platform function and is taken as a parameter. -/
def payload (parseFloat : String → JSNumber) (formData : FormData) : JSObject :=
  setProp
    (setProp
      (setProp (formData.map (fun kv => (kv.1, JSValue.str kv.2)))
        "hours" (.num (parseFloat (propString formData "hours"))))
      "hourly_rate" (.num (parseFloat (propString formData "hourly_rate"))))
    "travel_cost" (.num (parseFloat (propString formData "travel_cost")))

/-- The request `handleSubmit` issues: `POST /shifts`. -/
def handleSubmitRequest (parseFloat : String → JSNumber) (s : State) : Request :=
  { method := "POST", path := ["shifts"], query := [],
    body := some (payload parseFloat s.formData) }

/-- The handler `handleSubmit` once the request has settled: success closes the dialog and resets the
form, failure only shows a notice. -/
def handleSubmit (user : User) (s : State) (res : Except ApiError Unit) : State :=
  match res with
  | .ok _ => { s with dialogOpen := false, formData := emptyForm user }
  | .error _ => s

/-- The request `updateShiftStatus(shiftId, status)` issues:
`PATCH /shifts/{shiftId}/status?status={status}`. -/
def updateShiftStatus (shiftId status : String) : Request :=
  { method := "PATCH", path := ["shifts", shiftId, "status"], query := [("status", status)],
    body := none }

/-- The requests wired to the buttons of one shift card: the "Valider" button, rendered
under `user.role === 'admin' && shift.status === 'pending'`. -/
def cardActions (user : User) (shift : Shift) : List Request :=
  if user.role == "admin" && shift.status == "pending" then
    [updateShiftStatus shift.id "validated"]
  else []

/-- The form controls that are rendered, each with the key it writes.  The user select is
rendered for admins only. -/
def controls (user : User) : List String :=
  (if user.role == "admin" then ["user_id"] else []) ++
    ["institution_id", "date", "hours", "hourly_rate", "travel_cost"]

/-- The values a control can report: a select reports one of its options, an input any
string. -/
def offers (s : State) (field value : String) : Bool :=
  if field = "user_id" then value ∈ "" :: s.users.map (fun u => u.id)
  else if field = "institution_id" then value ∈ "" :: s.institutions.map (fun i => i.id)
  else true

/-- Constraint validation of the form: the `required` controls must be filled in before
the submit handler runs. -/
def formValid (user : User) (s : State) : Bool :=
  (controls user).all
    (fun k => k == "travel_cost" || propString s.formData k != "")

/-- What can happen to the page. -/
inductive Event where
  | shiftsFetched (res : Except ApiError (List Shift))
  | institutionsFetched (res : Except ApiError (List Institution))
  | usersFetched (res : Except ApiError (List User))
  | dialogToggled (isOpen : Bool)
  | changed (field value : String)
  | submitted (res : Except ApiError Unit)

/-- One transition of the page; `none` when the event cannot occur in that state. -/
def step (user : User) (s : State) (ev : Event) : Option State :=
  match ev with
  | .shiftsFetched res => some (fetchShifts s res)
  | .institutionsFetched res => some (fetchInstitutions s res)
  | .usersFetched res => if user.role == "admin" then some (fetchUsers s res) else none
  | .dialogToggled b => some { s with dialogOpen := b }
  | .changed field value =>
    if field ∈ controls user ∧ offers s field value then some (onChange s field value)
    else none
  | .submitted res => if formValid user s then some (handleSubmit user s res) else none

/-- The states the page can be in. -/
inductive Reachable (user : User) : State → Prop where
  | mount : Reachable user (init user)
  | next {s t : State} (ev : Event) : Reachable user s → step user s ev = some t →
      Reachable user t

end ShiftsPage

/-! ## PayslipsPage.js -/

namespace PayslipsPage

/-- The `useState` cells of `PayslipsPage`. -/
structure State where
  payslips : List Payslip
  users : List User
  loading : Bool
  dialogOpen : Bool
  selectedUserId : String
  period : String
deriving DecidableEq

/-- The initial values of the `useState` cells. -/
def init (user : User) : State :=
  { payslips := [], users := [], loading := true, dialogOpen := false,
    selectedUserId := if user.role == "admin" then "" else user.id, period := "" }

/-- The request `handleGenerate` issues:
`POST /payslips/generate?user_id={selectedUserId}&period={period}`. -/
def handleGenerateRequest (s : State) : Request :=
  { method := "POST", path := ["payslips", "generate"],
    query := [("user_id", s.selectedUserId), ("period", s.period)], body := none }

/-- The handler `handleGenerate` once the request has settled. -/
def handleGenerate (s : State) (res : Except ApiError Unit) : State :=
  match res with
  | .ok _ => { s with dialogOpen := false, period := "" }
  | .error _ => s

end PayslipsPage

/-! ## ExchangesPage.js -/

namespace ExchangesPage

/-- The `useState` cells of `ExchangesPage`. -/
structure State where
  exchanges : List Exchange
  shifts : List Shift
  users : List User
  loading : Bool
  dialogOpen : Bool
  selectedShift : String
  selectedUser : String
deriving DecidableEq

/-- The initial values of the `useState` cells. -/
def init : State :=
  { exchanges := [], shifts := [], users := [], loading := true, dialogOpen := false,
    selectedShift := "", selectedUser := "" }

/-- The handler `fetchExchanges`, given the settled `GET /exchanges`. -/
def fetchExchanges (s : State) (res : Except ApiError (List Exchange)) : State :=
  match res with
  | .ok data => { s with exchanges := data, loading := false }
  | .error _ => { s with loading := false }

/-- The handler `fetchShifts`, given the settled `GET /shifts`. -/
def fetchShifts (user : User) (s : State) (res : Except ApiError (List Shift)) : State :=
  match res with
  | .ok data => { s with shifts := data.filter (fun sh => sh.user_id == user.id && sh.status != "paid") }
  | .error _ => s

/-- The handler `fetchUsers`, given the settled `GET /users`. -/
def fetchUsers (user : User) (s : State) (res : Except ApiError (List User)) : State :=
  match res with
  | .ok data =>
    { s with users :=
        (data.filter (fun u => u.status == "approved" && u.id != user.id && u.role != "admin")) }
  | .error _ => s

/-- The `value`s of the options of the shift select (placeholder first). -/
def shiftOptions (s : State) : List String := "" :: s.shifts.map (fun sh => sh.id)

/-- The `value`s of the options of the target-user select (placeholder first). -/
def userOptions (s : State) : List String := "" :: s.users.map (fun u => u.id)

/-- The request `handleSubmit` issues: `POST /exchanges` with the two selections. -/
def handleSubmitRequest (s : State) : Request :=
  { method := "POST", path := ["exchanges"], query := [],
    body := some [("shift_id", .str s.selectedShift), ("to_user_id", .str s.selectedUser)] }

/-- The handler `handleSubmit` once the request has settled. -/
def handleSubmit (s : State) (res : Except ApiError Unit) : State :=
  match res with
  | .ok _ => { s with dialogOpen := false, selectedShift := "", selectedUser := "" }
  | .error _ => s

/-- The request `updateExchange(exchangeId, status)` issues:
`PATCH /exchanges/{exchangeId}?status={status}`. -/
def updateExchange (exchangeId status : String) : Request :=
  { method := "PATCH", path := ["exchanges", exchangeId], query := [("status", status)],
    body := none }

/-- The requests wired to the buttons of one exchange card: accept and reject, rendered
under `isReceived && exchange.status === 'pending'`. -/
def cardActions (user : User) (exchange : Exchange) : List Request :=
  let isReceived := exchange.to_user_id == user.id
  if isReceived && exchange.status == "pending" then
    [updateExchange exchange.id "accepted", updateExchange exchange.id "rejected"]
  else []

/-- Constraint validation of the form: both selects are `required`. -/
def formValid (s : State) : Bool := s.selectedShift != "" && s.selectedUser != ""

/-- What can happen to the page. -/
inductive Event where
  | exchangesFetched (res : Except ApiError (List Exchange))
  | shiftsFetched (res : Except ApiError (List Shift))
  | usersFetched (res : Except ApiError (List User))
  | dialogToggled (isOpen : Bool)
  | shiftChosen (value : String)
  | userChosen (value : String)
  | submitted (res : Except ApiError Unit)

/-- One transition of the page; `none` when the event cannot occur in that state. -/
def step (user : User) (s : State) (ev : Event) : Option State :=
  match ev with
  | .exchangesFetched res => some (fetchExchanges s res)
  | .shiftsFetched res => some (fetchShifts user s res)
  | .usersFetched res => some (fetchUsers user s res)
  | .dialogToggled b => some { s with dialogOpen := b }
  | .shiftChosen v => if v ∈ shiftOptions s then some { s with selectedShift := v } else none
  | .userChosen v => if v ∈ userOptions s then some { s with selectedUser := v } else none
  | .submitted res => if formValid s then some (handleSubmit s res) else none

/-- The states the page can be in. -/
inductive Reachable (user : User) : State → Prop where
  | mount : Reachable user init
  | next {s t : State} (ev : Event) : Reachable user s → step user s ev = some t →
      Reachable user t

end ExchangesPage

/-! ## The mutating calls of the remaining pages -/

namespace SchedulesPage

/-- The request `handleSubmit` issues: `POST /schedules` with the form object. -/
def handleSubmitRequest (formData : JSObject) : Request :=
  { method := "POST", path := ["schedules"], query := [], body := some formData }

end SchedulesPage

namespace InstitutionsPage

/-- The request `handleSubmit` issues: `POST /institutions` with the form object. -/
def handleSubmitRequest (formData : JSObject) : Request :=
  { method := "POST", path := ["institutions"], query := [], body := some formData }

end InstitutionsPage

namespace ProfilePage

/-- The request `handleSubmit` issues: `PATCH /users/{user.id}` with the updates. -/
def handleSubmitRequest (user : User) (updates : JSObject) : Request :=
  { method := "PATCH", path := ["users", user.id], query := [], body := some updates }

end ProfilePage

namespace MessagesPage

/-- The request `fetchMessages` issues for an unread message:
`PATCH /messages/{msg.id}/read`. -/
def markReadRequest (msgId : String) : Request :=
  { method := "PATCH", path := ["messages", msgId, "read"], query := [], body := none }

/-- The request `sendMessage` issues: `POST /messages`. -/
def sendMessageRequest (recipientId content : String) : Request :=
  { method := "POST", path := ["messages"], query := [],
    body := some [("recipient_id", .str recipientId), ("content", .str content)] }

end MessagesPage

namespace NotificationsPage

/-- The request `markAsRead(notificationId)` issues:
`PATCH /notifications/{notificationId}/read`. -/
def markAsRead (notificationId : String) : Request :=
  { method := "PATCH", path := ["notifications", notificationId, "read"], query := [],
    body := none }

/-- The request `markAllAsRead()` issues: `PATCH /notifications/read-all`. -/
def markAllAsRead : Request :=
  { method := "PATCH", path := ["notifications", "read-all"], query := [], body := none }

end NotificationsPage

namespace UsersPage

/-- The request `updateUserStatus(userId, status)` issues:
`PATCH /users/{userId}/status?status={status}`. -/
def updateUserStatus (userId status : String) : Request :=
  { method := "PATCH", path := ["users", userId, "status"], query := [("status", status)],
    body := none }

end UsersPage

/-! ## Requests that act on shifts -/

/-- The shift and the status a request asks to set, when it is a shift status update. -/
def shiftStatusTarget (r : Request) : Option (String × String) :=
  match r.method, r.path with
  | "PATCH", ["shifts", shiftId, "status"] =>
    (getProp r.query "status").map (fun status => (shiftId, status))
  | _, _ => none

/-- Every request the controls of the pages that deal with shifts can issue for a viewer,
given what the three pages currently show: the shift form and the shift cards, the exchange
form and the exchange cards, and the payslip form. -/
def shiftPagesRequests (parseFloat : String → JSNumber) (user : User)
    (sp : ShiftsPage.State) (ep : ExchangesPage.State) (pp : PayslipsPage.State) :
    List Request :=
  ShiftsPage.handleSubmitRequest parseFloat sp
    :: (sp.shifts.map (ShiftsPage.cardActions user)).flatten
    ++ ExchangesPage.handleSubmitRequest ep
    :: (ep.exchanges.map (ExchangesPage.cardActions user)).flatten
    ++ [PayslipsPage.handleGenerateRequest pp]

/-- The mutating calls of the pages that do not deal with shifts, one per call site, with
arbitrary arguments. -/
inductive OtherCall where
  | createSchedule (formData : JSObject)
  | createInstitution (formData : JSObject)
  | updateProfile (user : User) (updates : JSObject)
  | markMessageRead (msgId : String)
  | sendMessage (recipientId content : String)
  | markNotificationRead (notificationId : String)
  | markAllNotificationsRead
  | updateUserStatus (userId status : String)

/-- The request of a call of the remaining pages. -/
def OtherCall.request (c : OtherCall) : Request :=
  match c with
  | .createSchedule formData => SchedulesPage.handleSubmitRequest formData
  | .createInstitution formData => InstitutionsPage.handleSubmitRequest formData
  | .updateProfile user updates => ProfilePage.handleSubmitRequest user updates
  | .markMessageRead msgId => MessagesPage.markReadRequest msgId
  | .sendMessage recipientId content => MessagesPage.sendMessageRequest recipientId content
  | .markNotificationRead notificationId => NotificationsPage.markAsRead notificationId
  | .markAllNotificationsRead => NotificationsPage.markAllAsRead
  | .updateUserStatus userId status => UsersPage.updateUserStatus userId status

/-! ## UsersPage.js -/

namespace UsersPage

/-- The `useState` cells of `UsersPage`. -/
structure State where
  users : List User
  filteredUsers : List User
  searchTerm : String
  filterStatus : String
  loading : Bool
deriving DecidableEq

/-- The initial values of the `useState` cells. -/
def init : State :=
  { users := [], filteredUsers := [], searchTerm := "", filterStatus := "all", loading := true }

/-- The handler `fetchUsers`, given the settled `GET /users`. -/
def fetchUsers (s : State) (res : Except ApiError (List User)) : State :=
  match res with
  | .ok data => { s with users := data, filteredUsers := data, loading := false }
  | .error _ => { s with loading := false }

/-- The requests wired to the buttons of one user card: approve and reject, rendered under
`u.status === 'pending'`. -/
def cardActions (u : User) : List Request :=
  if u.status == "pending" then
    [updateUserStatus u.id "approved", updateUserStatus u.id "rejected"]
  else []

/-- What the component returns. -/
inductive View where
  | adminOnly
  | spinner
  | page (cards : List (User × List Request)) (emptyNotice : Bool)
deriving DecidableEq

/-- The render of `UsersPage`: the administrators-only notice for any other role, then the
spinner while loading, then one card per filtered user. -/
def render (user : User) (s : State) : View :=
  if user.role != "admin" then .adminOnly
  else if s.loading then .spinner
  else .page (s.filteredUsers.map (fun u => (u, cardActions u))) (s.filteredUsers.length == 0)

end UsersPage

/-! ## InstitutionsPage.js -/

namespace InstitutionsPage

/-- The `useState` cells of `InstitutionsPage`. -/
structure State where
  institutions : List Institution
  loading : Bool
  dialogOpen : Bool
  formData : FormData
deriving DecidableEq

/-- The object literal the form starts from and is reset to after a successful submit. -/
def emptyForm : FormData := [("name", ""), ("address", ""), ("phone", ""), ("email", "")]

/-- The initial values of the `useState` cells. -/
def init : State :=
  { institutions := [], loading := true, dialogOpen := false, formData := emptyForm }

/-- The handler `fetchInstitutions`, given the settled `GET /institutions`. -/
def fetchInstitutions (s : State) (res : Except ApiError (List Institution)) : State :=
  match res with
  | .ok data => { s with institutions := data, loading := false }
  | .error _ => { s with loading := false }

/-- What the component returns. -/
inductive View where
  | spinner
  | page (addControl : Bool) (cards : List Institution) (emptyNotice : Bool)
deriving DecidableEq

/-- The render of `InstitutionsPage`: the spinner while loading, then the add control for
admins and one card per institution for every viewer. -/
def render (user : User) (s : State) : View :=
  if s.loading then .spinner
  else .page (user.role == "admin") s.institutions (s.institutions.length == 0)

/-- The handler `handleSubmit` once the request has settled. -/
def handleSubmit (s : State) (res : Except ApiError Unit) : State :=
  match res with
  | .ok _ => { s with dialogOpen := false, formData := emptyForm }
  | .error _ => s

end InstitutionsPage

/-! ## MessagesPage.js -/

/-- A direct message as the API returns it. -/
structure Message where
  id : String
  sender_id : String
  recipient_id : String
  content : String
  timestamp : String
  read : Bool
deriving DecidableEq

namespace MessagesPage

/-- The `useState` cells of `MessagesPage`. -/
structure State where
  users : List User
  selectedUser : Option User
  messages : List Message
  newMessage : String
  loading : Bool
deriving DecidableEq

/-- The initial values of the `useState` cells. -/
def init : State :=
  { users := [], selectedUser := none, messages := [], newMessage := "", loading := true }

/-- The handler `fetchUsers`, given the settled `GET /users`. -/
def fetchUsers (user : User) (s : State) (res : Except ApiError (List User)) : State :=
  match res with
  | .ok data =>
    { s with users := (data.filter (fun u => u.status == "approved" && u.id != user.id)),
             loading := false }
  | .error _ => { s with loading := false }

end MessagesPage

/-! ## MessagesPage.js: loading a conversation -/

/-- Modelled from the spec: the message list handler (`GET /messages?other_user_id=`),
absent from the sources, applied to the stored messages.  "Direct message send/list
filtered by participant pair, ordered by timestamp ascending." -/
def Server.listMessages (stored : List Message) (callerId otherUserId : String) :
    List Message :=
  (stored.filter (fun m =>
      (m.sender_id == callerId && m.recipient_id == otherUserId)
        || (m.sender_id == otherUserId && m.recipient_id == callerId))).insertionSort
    (fun a b => a.timestamp ≤ b.timestamp)

namespace MessagesPage

/-- The request `fetchMessages(otherUserId)` starts with:
`GET /messages?other_user_id={otherUserId}`. -/
def fetchMessagesRequest (otherUserId : String) : Request :=
  { method := "GET", path := ["messages"], query := [("other_user_id", otherUserId)],
    body := none }

/-- The state part of `fetchMessages`, given the settled list request: the response is
stored as it came. -/
def fetchMessages (s : State) (res : Except ApiError (List Message)) : State :=
  match res with
  | .ok data => { s with messages := data }
  | .error _ => s

/-- The messages of a response that `fetchMessages` sets out to mark as read:
`res.data.filter(m => m.recipient_id === user.id && !m.read)`. -/
def unreadMessages (user : User) (data : List Message) : List Message :=
  data.filter (fun m => m.recipient_id == user.id && !m.read)

/-- The loop `for (const msg of unreadMessages) await axios.patch(...)`: one call per
message, in order; a call that fails throws, which leaves the loop.  `succeeds i` tells
whether the call number `i` of the run succeeds. -/
def markAll (succeeds : Nat → Bool) (i : Nat) (unread : List Message) : List Request :=
  match unread with
  | [] => []
  | msg :: rest =>
    markReadRequest msg.id ::
      (if succeeds i then markAll succeeds (i + 1) rest else [])

/-- The mark-read calls `fetchMessages` issues after a response `data`. -/
def markReadCalls (user : User) (data : List Message) (succeeds : Nat → Bool) :
    List Request :=
  markAll succeeds 0 (unreadMessages user data)

/-- The messages rendered in the conversation pane, in order: `messages.map(...)` once the
page has loaded and a contact is selected. -/
def shown (s : State) : List Message :=
  if s.loading then []
  else match s.selectedUser with
    | some _ => s.messages
    | none => []

end MessagesPage

/-! ## ProfilePage.js -/

/-- A form object as a JSON body: every value is a string. -/
def formBody (formData : FormData) : JSObject :=
  formData.map (fun kv => (kv.1, JSValue.str kv.2))

/-- The operand of `x || fallback` and of `if (x)` for an optional string: `null`,
`undefined` and the empty string are falsy. -/
def truthy (x : Option String) : Option String := x.filter (fun v => v != "")

/-- Property write on a user record, as done by a spread over it.  The record keeps the
properties the pages read; a key that names none of them has no field to land in. -/
def setUserProp (u : User) (k v : String) : User :=
  if k = "id" then { u with id := v }
  else if k = "first_name" then { u with first_name := v }
  else if k = "last_name" then { u with last_name := v }
  else if k = "email" then { u with email := v }
  else if k = "role" then { u with role := v }
  else if k = "status" then { u with status := v }
  else if k = "phone" then { u with phone := some v }
  else if k = "photo" then { u with photo := some v }
  else u

namespace ProfilePage

/-- The `useState` cells of `ProfilePage`. -/
structure State where
  formData : FormData
  photo : Option String
  loading : Bool
deriving DecidableEq

/-- The initial values of the `useState` cells, computed from the `user` prop at mount. -/
def init (user : User) : State :=
  { formData := [("first_name", user.first_name), ("last_name", user.last_name),
                 ("phone", (truthy user.phone).getD ""), ("email", user.email)],
    photo := truthy user.photo, loading := false }

/-- The handler `handleChange`: `setFormData({ ...formData, [e.target.name]: e.target.value })`. -/
def handleChange (s : State) (name value : String) : State :=
  { s with formData := setProp s.formData name value }

/-- The handler `handlePhotoChange` once the file reader has finished:
`setPhoto(reader.result)`. -/
def handlePhotoChange (s : State) (result : Option String) : State :=
  { s with photo := result }

/-- The object `updates` that `handleSubmit` builds: a copy of the form, with the photo
added when one is set. -/
def updates (s : State) : FormData :=
  match truthy s.photo with
  | some photo => setProp s.formData "photo" photo
  | none => s.formData

/-- The request `handleSubmit` issues for the page state: `PATCH /users/{user.id}` with
`updates` as body. -/
def request (user : User) (s : State) : Request :=
  handleSubmitRequest user (formBody (updates s))

/-- The object `updatedUser`: `{ ...user, ...updates }`. -/
def updatedUser (user : User) (fields : FormData) : User :=
  fields.foldl (fun u kv => setUserProp u kv.1 kv.2) user

/-- What the page shares with the application: the `user` prop, which `setUser` replaces,
and local storage. -/
structure Session where
  user : User
  localStorage : List (String × String)
deriving DecidableEq

/-- The handler `handleSubmit` once the request has settled.  On success the updated user
is stored in the application state and under the key `user` of local storage;
`stringify` is `JSON.stringify`, the platform function. -/
def handleSubmit (stringify : User → String) (w : Session) (s : State)
    (res : Except ApiError Unit) : Session × State :=
  match res with
  | .ok _ =>
    ({ user := updatedUser w.user (updates s),
       localStorage := setProp w.localStorage "user" (stringify (updatedUser w.user (updates s))) },
     { s with loading := false })
  | .error _ => (w, { s with loading := false })

/-- The inputs wired to `handleChange` that can report a change.  The email input is
`disabled`. -/
def controls : List String := ["first_name", "last_name", "phone"]

/-- Constraint validation of the form: the first and the last name are `required`. -/
def formValid (s : State) : Bool :=
  propString s.formData "first_name" != "" && propString s.formData "last_name" != ""

/-- What can happen to the page. -/
inductive Event where
  | changed (name value : String)
  | photoLoaded (result : Option String)
  | submitted (res : Except ApiError Unit)

/-- One transition of the page and the session; `none` when the event cannot occur. -/
def step (stringify : User → String) (c : Session × State) (ev : Event) :
    Option (Session × State) :=
  match ev with
  | .changed name value =>
    if name ∈ controls then some (c.1, handleChange c.2 name value) else none
  | .photoLoaded result => some (c.1, handlePhotoChange c.2 result)
  | .submitted res => if formValid c.2 then some (handleSubmit stringify c.1 c.2 res) else none

/-- The sessions and page states that arise after the page is mounted for `user`. -/
inductive Reachable (stringify : User → String) (user : User)
    (storage : List (String × String)) : Session × State → Prop where
  | mount : Reachable stringify user storage
      ({ user := user, localStorage := storage }, init user)
  | next {c d : Session × State} (ev : Event) : Reachable stringify user storage c →
      step stringify c ev = some d → Reachable stringify user storage d

end ProfilePage

/-! ## App.js: the axios interceptors -/

/-- The part of the browser the application writes to: local storage and the location. -/
structure Browser where
  localStorage : List (String × String)
  location : String
deriving DecidableEq

/-- The call `localStorage.removeItem(key)`. -/
def removeItem (storage : List (String × String)) (key : String) : List (String × String) :=
  storage.filter (fun kv => kv.1 != key)

/-- The response carried by a failed request: its HTTP status and the `detail` of its
body, if any. -/
structure ErrorResponse where
  status : Nat
  detail : Option String
deriving DecidableEq

/-- An axios error; `response` is absent when no response arrived. -/
structure AxiosError where
  message : String
  response : Option ErrorResponse
deriving DecidableEq

namespace App

/-- A request config: the call itself and its headers. -/
structure RequestConfig where
  request : Request
  headers : List (String × String)
deriving DecidableEq

/-- The request interceptor: with a truthy stored token, `config.headers.Authorization` is
set to the bearer string; the config is returned. -/
def onRequest (b : Browser) (config : RequestConfig) : RequestConfig :=
  match truthy (getProp b.localStorage "token") with
  | some token =>
    { config with headers := setProp config.headers "Authorization" ("Bearer " ++ token) }
  | none => config

/-- The rejection handler of the response interceptor: on `error.response?.status === 401`
both storage keys are removed and the location is set to the login page; the result is the
browser afterwards and the error passed to `Promise.reject`. -/
def onResponseError (b : Browser) (error : AxiosError) : Browser × AxiosError :=
  if error.response.map (fun r => r.status) = some 401 then
    ({ localStorage := removeItem (removeItem b.localStorage "token") "user",
       location := "/login" }, error)
  else (b, error)

end App

/-! ## SchedulesPage.js -/

/-- An availability slot as the API returns it. -/
structure Schedule where
  id : String
  user_id : String
  institution_id : String
  date : String
  start_time : String
  end_time : String
  status : String
deriving DecidableEq

namespace SchedulesPage

/-- The `useState` cells of `SchedulesPage`. -/
structure State where
  schedules : List Schedule
  institutions : List Institution
  users : List User
  loading : Bool
  dialogOpen : Bool
  formData : FormData
deriving DecidableEq

/-- The object literal the form starts from and is reset to after a successful submit. -/
def emptyForm (user : User) : FormData :=
  [("user_id", user.id), ("institution_id", ""), ("date", ""), ("start_time", ""),
   ("end_time", ""), ("status", "available")]

/-- The initial values of the `useState` cells. -/
def init (user : User) : State :=
  { schedules := [], institutions := [], users := [], loading := true, dialogOpen := false,
    formData := emptyForm user }

/-- The handler `handleSubmit` once the request has settled. -/
def handleSubmit (user : User) (s : State) (res : Except ApiError Unit) : State :=
  match res with
  | .ok _ => { s with dialogOpen := false, formData := emptyForm user }
  | .error _ => s

end SchedulesPage

/-! ## What a submit handler does besides updating its state -/

/-- An observable step of a handler: an axios call or a transient notice. -/
inductive Effect where
  | request (r : Request)
  | toast (success : Bool)
deriving DecidableEq

/-- The axios calls among the steps of a handler, in order. -/
def requestsOf (steps : List Effect) : List Request :=
  steps.filterMap (fun x => match x with
    | .request r => some r
    | .toast _ => none)

/-- The list request `GET /{resource}` a page issues to load or reload its list. -/
def listRequest (resource : String) : Request :=
  { method := "GET", path := [resource], query := [], body := none }

/-- The steps of `ShiftsPage.handleSubmit`: the post, then on success the notice and the
reload of the shifts, on failure the error notice. -/
def ShiftsPage.handleSubmitEffects (parseFloat : String → JSNumber) (s : ShiftsPage.State)
    (res : Except ApiError Unit) : List Effect :=
  .request (ShiftsPage.handleSubmitRequest parseFloat s) ::
    (match res with
      | .ok _ => [.toast true, .request (listRequest "shifts")]
      | .error _ => [.toast false])

/-- The steps of `SchedulesPage.handleSubmit`: the post of the form object, then on success
the notice and the reload of the schedules, on failure the error notice. -/
def SchedulesPage.handleSubmitEffects (s : SchedulesPage.State) (res : Except ApiError Unit) :
    List Effect :=
  .request (SchedulesPage.handleSubmitRequest (formBody s.formData)) ::
    (match res with
      | .ok _ => [.toast true, .request (listRequest "schedules")]
      | .error _ => [.toast false])

/-- The steps of `InstitutionsPage.handleSubmit`: the post of the form object, then on
success the notice and the reload of the institutions, on failure the error notice. -/
def InstitutionsPage.handleSubmitEffects (s : InstitutionsPage.State)
    (res : Except ApiError Unit) : List Effect :=
  .request (InstitutionsPage.handleSubmitRequest (formBody s.formData)) ::
    (match res with
      | .ok _ => [.toast true, .request (listRequest "institutions")]
      | .error _ => [.toast false])

/-- The steps of `ExchangesPage.handleSubmit`: the post, then on success the notice and the
reload of the exchanges, on failure the error notice. -/
def ExchangesPage.handleSubmitEffects (s : ExchangesPage.State) (res : Except ApiError Unit) :
    List Effect :=
  .request (ExchangesPage.handleSubmitRequest s) ::
    (match res with
      | .ok _ => [.toast true, .request (listRequest "exchanges")]
      | .error _ => [.toast false])

/-- The steps of `PayslipsPage.handleGenerate`: the post, then on success the notice and the
reload of the payslips, on failure the error notice. -/
def PayslipsPage.handleGenerateEffects (s : PayslipsPage.State) (res : Except ApiError Unit) :
    List Effect :=
  .request (PayslipsPage.handleGenerateRequest s) ::
    (match res with
      | .ok _ => [.toast true, .request (listRequest "payslips")]
      | .error _ => [.toast false])

/-! ## PayslipsPage.js: what is rendered -/

namespace PayslipsPage

/-- The handler `fetchPayslips`, given the settled `GET /payslips`. -/
def fetchPayslips (s : State) (res : Except ApiError (List Payslip)) : State :=
  match res with
  | .ok data => { s with payslips := data, loading := false }
  | .error _ => { s with loading := false }

/-- The handler `fetchUsers`, given the settled `GET /users`. -/
def fetchUsers (s : State) (res : Except ApiError (List User)) : State :=
  match res with
  | .ok data =>
    { s with users := (data.filter (fun u => u.status == "approved" && u.role != "admin")) }
  | .error _ => s

/-- What the component returns.  `generateControl` holds the option values of the user
select when the generation dialog is rendered. -/
inductive View where
  | spinner
  | page (generateControl : Option (List String)) (cards : List Payslip) (emptyNotice : Bool)
deriving DecidableEq

/-- The render of `PayslipsPage`: the spinner while loading, then the generation control
under `user.role === 'admin'` and one card per payslip. -/
def render (user : User) (s : State) : View :=
  if s.loading then .spinner
  else .page (if user.role == "admin" then some ("" :: s.users.map (fun u => u.id)) else none)
    s.payslips (s.payslips.length == 0)

end PayslipsPage

/-! ## Layout.js -/

/-- A notification as the API returns it; the read flag may be absent. -/
structure Notification where
  id : String
  type : String
  content : String
  timestamp : String
  read : Option Bool
deriving DecidableEq

/-- The test `!n.read`: an absent flag is falsy. -/
def Notification.unread (n : Notification) : Bool := n.read != some true

namespace Layout

/-- An entry of the side menu (the icon is left out). -/
structure MenuItem where
  path : String
  label : String
  roles : List String
deriving DecidableEq

/-- The array `menuItems`. -/
def menuItems : List MenuItem :=
  [{ path := "/dashboard", label := "Dashboard", roles := ["admin", "infirmier", "aide_soignant"] },
   { path := "/users", label := "Utilisateurs", roles := ["admin"] },
   { path := "/institutions", label := "Établissements",
     roles := ["admin", "infirmier", "aide_soignant"] },
   { path := "/schedules", label := "Horaires", roles := ["admin", "infirmier", "aide_soignant"] },
   { path := "/shifts", label := "Prestations", roles := ["admin", "infirmier", "aide_soignant"] },
   { path := "/payslips", label := "Fiches de paie",
     roles := ["admin", "infirmier", "aide_soignant"] },
   { path := "/messages", label := "Messages", roles := ["admin", "infirmier", "aide_soignant"] },
   { path := "/exchanges", label := "Échanges", roles := ["admin", "infirmier", "aide_soignant"] }]

/-- The array `filteredMenuItems`:
`menuItems.filter(item => item.roles.includes(user.role))`. -/
def filteredMenuItems (user : User) : List MenuItem :=
  menuItems.filter (fun item => item.roles.contains user.role)

/-- The `useState` cells of `Layout`. -/
structure State where
  sidebarOpen : Bool
  notificationCount : Nat
deriving DecidableEq

/-- The initial values of the `useState` cells. -/
def init : State := { sidebarOpen := false, notificationCount := 0 }

/-- The handler `fetchNotificationCount`, given the settled `GET /notifications`. -/
def fetchNotificationCount (s : State) (res : Except ApiError (List Notification)) : State :=
  match res with
  | .ok data => { s with notificationCount := (data.filter (fun n => n.unread)).length }
  | .error _ => s

/-- The badge on the bell: rendered under `notificationCount > 0`, with the text "9+" above
nine and the count itself otherwise. -/
def badge (s : State) : Option String :=
  if s.notificationCount > 0 then
    some (if s.notificationCount > 9 then "9+" else toString s.notificationCount)
  else none

end Layout

/-! ## NotificationsPage.js -/

namespace NotificationsPage

/-- The `useState` cells of `NotificationsPage`. -/
structure State where
  notifications : List Notification
  loading : Bool
deriving DecidableEq

/-- The initial values of the `useState` cells. -/
def init : State := { notifications := [], loading := true }

/-- The handler `fetchNotifications`, given the settled `GET /notifications`. -/
def fetchNotifications (s : State) (res : Except ApiError (List Notification)) : State :=
  match res with
  | .ok data => { s with notifications := data, loading := false }
  | .error _ => { s with loading := false }

/-- The constant `unreadCount`: `notifications.filter(n => !n.read).length`. -/
def unreadCount (s : State) : Nat := (s.notifications.filter (fun n => n.unread)).length

/-- What the component returns. -/
inductive View where
  | spinner
  | page (unread : Nat) (markAllControl : Bool) (cards : List (Notification × List Request))
      (emptyNotice : Bool)
deriving DecidableEq

/-- The render of `NotificationsPage`: the spinner while loading, then the mark-all control
under `unreadCount > 0` and one card per notification, with its mark-read button when the
notification is unread. -/
def render (s : State) : View :=
  if s.loading then .spinner
  else .page (unreadCount s) (decide (unreadCount s > 0))
    (s.notifications.map (fun n => (n, if n.unread then [markAsRead n.id] else [])))
    (s.notifications.length == 0)

end NotificationsPage

/-! ## App.js: session and routes -/

namespace App

/-- The `useState` cells of `App`: the current user (`null` when logged out) and the
loading flag. -/
structure State where
  user : Option User
  loading : Bool
deriving DecidableEq

/-- The function `login(token, userData)`; `stringify` is `JSON.stringify`. -/
def login (stringify : User → String) (b : Browser) (s : State) (token : String)
    (userData : User) : Browser × State :=
  ({ b with localStorage :=
      (setProp (setProp b.localStorage "token" token) "user" (stringify userData)) },
   { s with user := some userData })

/-- The function `logout()`. -/
def logout (b : Browser) (s : State) : Browser × State :=
  ({ b with localStorage := (removeItem (removeItem b.localStorage "token") "user") },
   { s with user := none })

/-- What the application shows for a location. -/
inductive Screen where
  | spinner
  | loginPage
  | registerPage
  | redirect (target : String)
  | layout (page : String)
  | blank
deriving DecidableEq

/-- The child routes of the layout route, by path. -/
def pages : List String :=
  ["dashboard", "profile", "users", "institutions", "schedules", "shifts", "payslips",
   "messages", "notifications", "exchanges"]

/-- A list of characters without its trailing slashes. -/
def dropTrailingSlashes (cs : List Char) : List Char :=
  (cs.reverse.dropWhile (fun c => c == '/')).reverse

/-- The router's test of a static route path against the pathname of the location, for a
route matched to its end: the matcher is compiled without `caseSensitive`, so the letters
A to Z match whatever their case, and trailing slashes of either side are ignored. -/
def matchPath (pattern pathname : String) : Bool :=
  (dropTrailingSlashes pattern.toList).map Char.toLower
    == (dropTrailingSlashes pathname.toList).map Char.toLower

/-- The route table of `App` applied to the pathname of the location: the spinner while
loading; the login and register routes under `!user`; the layout route under `user`, its
index child being a redirect to the dashboard; nothing for a pathname no route matches. -/
def route (s : State) (pathname : String) : Screen :=
  if s.loading then .spinner
  else if matchPath "/login" pathname then
    (match s.user with
      | none => .loginPage
      | some _ => .redirect "/dashboard")
  else if matchPath "/register" pathname then
    (match s.user with
      | none => .registerPage
      | some _ => .redirect "/dashboard")
  else if matchPath "/" pathname then
    (match s.user with
      | none => .redirect "/login"
      | some _ => .redirect "/dashboard")
  else match pages.find? (fun page => matchPath ("/" ++ page) pathname) with
    | some page =>
      (match s.user with
        | none => .redirect "/login"
        | some _ => .layout page)
    | none => .blank

end App

/-! ## UsersPage.js: search and status filter -/

/-- The call `haystack.includes(needle)` on strings. -/
def includes (haystack needle : String) : Bool :=
  decide (needle.toList <:+: haystack.toList)

namespace UsersPage

/-- The effect on `[searchTerm, filterStatus, users]`: it recomputes `filteredUsers` from
`users`, first with the search term when it is not empty, then with the status filter when
it is not 'all'.  `toLowerCase` is the platform function. -/
def filterEffect (toLowerCase : String → String) (s : State) : State :=
  let filtered := s.users
  let filtered :=
    if s.searchTerm != "" then
      filtered.filter (fun u =>
        includes (toLowerCase u.first_name) (toLowerCase s.searchTerm)
          || includes (toLowerCase u.last_name) (toLowerCase s.searchTerm)
          || includes (toLowerCase u.email) (toLowerCase s.searchTerm))
    else filtered
  let filtered :=
    if s.filterStatus != "all" then filtered.filter (fun u => u.status == s.filterStatus)
    else filtered
  { s with filteredUsers := filtered }

end UsersPage

/-! ## ExchangesPage.js: the shift shown on an exchange card -/

namespace ExchangesPage

/-- The lookup `getShiftDetails(shiftId)`: `shifts.find(s => s.id === shiftId) || {}`, with
`none` for the empty object. -/
def getShiftDetails (s : State) (shiftId : String) : Option Shift :=
  s.shifts.find? (fun sh => sh.id == shiftId)

/-- The date, hours and amount an exchange card shows: the block rendered under
`shift.date &&`, where `shift` is the result of the lookup. -/
def cardDetails (s : State) (exchange : Exchange) : Option (String × ℚ × ℚ) :=
  match getShiftDetails s exchange.shift_id with
  | some shift => if shift.date != "" then some (shift.date, shift.hours, shift.total) else none
  | none => none

end ExchangesPage

/-! ## SchedulesPage.js: the form -/

/-- Modelled from the spec: the create-schedule handler (`POST /schedules`), absent from the
sources, applied to the stored schedules.  A schedule has "end_time > start_time"; a missing
or malformed field, and a slot that does not end after it starts, is a validation error.
Times are compared as the strings the time inputs report. -/
def Server.createSchedule (stored : List Schedule) (newId : String) (body : JSObject) :
    Except ApiError (List Schedule) :=
  match jsonString (getProp body "user_id"), jsonString (getProp body "institution_id"),
      jsonString (getProp body "date"), jsonString (getProp body "start_time"),
      jsonString (getProp body "end_time"), jsonString (getProp body "status") with
  | some uid, some iid, some date, some startTime, some endTime, some status =>
    if startTime < endTime then
      .ok (stored ++
        [{ id := newId, user_id := uid, institution_id := iid, date := date,
           start_time := startTime, end_time := endTime, status := status }])
    else .error .validationError
  | _, _, _, _, _, _ => .error .validationError

/-- Modelled from the spec: the stored schedules after a create request and the response
the client sees; a failed request leaves the stored schedules as they were. -/
def Server.respondSchedule (stored : List Schedule) (newId : String) (req : Request) :
    List Schedule × Except ApiError Unit :=
  match Server.createSchedule stored newId (req.body.getD []) with
  | .ok stored1 => (stored1, .ok ())
  | .error e => (stored, .error e)

namespace SchedulesPage

/-- The handler `fetchSchedules`, given the settled `GET /schedules`. -/
def fetchSchedules (s : State) (res : Except ApiError (List Schedule)) : State :=
  match res with
  | .ok data => { s with schedules := data, loading := false }
  | .error _ => { s with loading := false }

/-- The handler `fetchInstitutions`, given the settled `GET /institutions`. -/
def fetchInstitutions (s : State) (res : Except ApiError (List Institution)) : State :=
  match res with
  | .ok data => { s with institutions := data }
  | .error _ => s

/-- The handler `fetchUsers`, given the settled `GET /users`. -/
def fetchUsers (s : State) (res : Except ApiError (List User)) : State :=
  match res with
  | .ok data => { s with users := (data.filter (fun u => u.status == "approved")) }
  | .error _ => s

/-- The `onChange` of a form control: `setFormData({ ...formData, [field]: value })`. -/
def onChange (s : State) (field value : String) : State :=
  { s with formData := setProp s.formData field value }

/-- The request `handleSubmit` issues for the page state: `POST /schedules` with the form
object as body. -/
def request (s : State) : Request := handleSubmitRequest (formBody s.formData)

/-- The form controls that are rendered, each with the key it writes.  The user select is
rendered for admins only; no control writes `status`. -/
def controls (user : User) : List String :=
  (if user.role == "admin" then ["user_id"] else []) ++
    ["institution_id", "date", "start_time", "end_time"]

/-- The values a control can report: a select reports one of its options, an input any
string. -/
def offers (s : State) (field value : String) : Bool :=
  if field = "user_id" then value ∈ "" :: s.users.map (fun u => u.id)
  else if field = "institution_id" then value ∈ "" :: s.institutions.map (fun i => i.id)
  else true

/-- Constraint validation of the form: every rendered control is `required`. -/
def formValid (user : User) (s : State) : Bool :=
  (controls user).all (fun k => propString s.formData k != "")

/-- What can happen to the page. -/
inductive Event where
  | schedulesFetched (res : Except ApiError (List Schedule))
  | institutionsFetched (res : Except ApiError (List Institution))
  | usersFetched (res : Except ApiError (List User))
  | dialogToggled (isOpen : Bool)
  | changed (field value : String)
  | submitted (res : Except ApiError Unit)

/-- One transition of the page; `none` when the event cannot occur in that state. -/
def step (user : User) (s : State) (ev : Event) : Option State :=
  match ev with
  | .schedulesFetched res => some (fetchSchedules s res)
  | .institutionsFetched res => some (fetchInstitutions s res)
  | .usersFetched res => if user.role == "admin" then some (fetchUsers s res) else none
  | .dialogToggled b => some { s with dialogOpen := b }
  | .changed field value =>
    if field ∈ controls user ∧ offers s field value then some (onChange s field value)
    else none
  | .submitted res => if formValid user s then some (handleSubmit user s res) else none

/-- The states the page can be in. -/
inductive Reachable (user : User) : State → Prop where
  | mount : Reachable user (init user)
  | next {s t : State} (ev : Event) : Reachable user s → step user s ev = some t →
      Reachable user t

end SchedulesPage

/-! ## MessagesPage.js: sending -/

/-- The code points `String.prototype.trim` strips: the white space and line terminator
characters of the language. -/
def isTrimmable (c : Char) : Bool :=
  c.toNat ∈ [0x9, 0xA, 0xB, 0xC, 0xD, 0x20, 0xA0, 0x1680, 0x2000, 0x2001, 0x2002, 0x2003,
    0x2004, 0x2005, 0x2006, 0x2007, 0x2008, 0x2009, 0x200A, 0x2028, 0x2029, 0x202F, 0x205F,
    0x3000, 0xFEFF]

/-- The characters of `text.trim()`: the text without its leading and trailing white
space. -/
def trimChars (text : List Char) : List Char :=
  ((text.dropWhile isTrimmable).reverse.dropWhile isTrimmable).reverse

/-- The test `!text.trim()`: the trimmed text is the empty string. -/
def isBlank (text : String) : Bool := (trimChars text.toList).isEmpty

namespace MessagesPage

/-- The guard of `sendMessage`: `!newMessage.trim() || !selectedUser`, under which the
handler returns at once. -/
def sendGuard (s : State) : Bool := isBlank s.newMessage || s.selectedUser.isNone

/-- The steps of `sendMessage`: nothing under the guard; otherwise the post of the draft to
the selected contact, then on success the reload of the conversation, on failure the error
notice. -/
def sendMessageEffects (s : State) (res : Except ApiError Unit) : List Effect :=
  match s.selectedUser with
  | none => []
  | some contact =>
    if isBlank s.newMessage then []
    else
      .request (sendMessageRequest contact.id s.newMessage) ::
        (match res with
          | .ok _ => [.request (fetchMessagesRequest contact.id)]
          | .error _ => [.toast false])

/-- The handler `sendMessage` once the request, if any, has settled: the draft is cleared
after a successful post. -/
def sendMessage (s : State) (res : Except ApiError Unit) : State :=
  if sendGuard s then s
  else match res with
    | .ok _ => { s with newMessage := "" }
    | .error _ => s

end MessagesPage

/-! ## Sample data -/

namespace Sample

def nurse : User :=
  { id := "u1", first_name := "Ana", last_name := "Diaz", email := "ana@sana.care",
    role := "infirmier", status := "approved" }

def aide : User :=
  { id := "u2", first_name := "Luc", last_name := "Petit", email := "luc@sana.care",
    role := "aide_soignant", status := "approved" }

def admin : User :=
  { id := "a1", first_name := "Eve", last_name := "Roux", email := "eve@sana.care",
    role := "admin", status := "approved" }

/-- The shift of the scenario: 8 hours at 20 with 5 of travel. -/
def shift (id status : String) : Shift :=
  { id := id, user_id := "u1", institution_id := "i1", date := "2024-05-03", hours := 8,
    hourly_rate := 20, travel_cost := 5, total := 165, status := status }

/-- The exchanges page of the nurse after both lists arrived and both selects were used. -/
def proposal : ExchangesPage.State :=
  { exchanges := [], shifts := [shift "s1" "pending"], users := [aide], loading := true,
    dialogOpen := true, selectedShift := "s1", selectedUser := "u2" }

/-- A store holding two validated shifts of the nurse in May 2024. -/
def store : ServerState :=
  { users := [nurse, aide, admin],
    shifts := [shift "s1" "validated", shift "s2" "validated"],
    exchanges := [], payslips := [] }

/-- The values `parseFloat` takes on the strings used in the examples. -/
def parseFloat (text : String) : JSNumber :=
  if text = "8" then .fin 8
  else if text = "20" then .fin 20
  else if text = "5" then .fin 5
  else if text = "0" then .fin 0
  else if text = "-2" then .fin (-2)
  else .nan

/-- The shift form of the nurse filled in with 8 hours at 20 and 5 of travel. -/
def filledForm : FormData :=
  [("user_id", "u1"), ("institution_id", "i1"), ("date", "2024-05-03"), ("hours", "8"),
   ("hourly_rate", "20"), ("travel_cost", "5")]

/-- The shifts page of the nurse showing that form. -/
def shiftDraft : ShiftsPage.State :=
  { shifts := [], institutions := [{ id := "i1", name := "Clinique" }], users := [],
    loading := true, dialogOpen := true, formData := filledForm }

/-- The schedules page of the nurse with a slot that ends before it starts. -/
def slotDraft : SchedulesPage.State :=
  { schedules := [], institutions := [{ id := "i1", name := "Clinique" }], users := [],
    loading := true, dialogOpen := true,
    formData := [("user_id", "u1"), ("institution_id", "i1"), ("date", "2024-05-03"),
                 ("start_time", "10:00"), ("end_time", "09:00"), ("status", "available")] }

/-- The messages page of the nurse with the aide selected and a draft typed. -/
def draft (text : String) : MessagesPage.State :=
  { users := [aide], selectedUser := some aide, messages := [], newMessage := text,
    loading := false }

/-- A message of the aide to the nurse that she has not read yet. -/
def unread (id timestamp : String) : Message :=
  { id := id, sender_id := "u2", recipient_id := "u1", content := "Bonjour",
    timestamp := timestamp, read := false }

/-- A stand-in for `JSON.stringify` on users, for the examples. -/
def stringify (u : User) : String :=
  String.intercalate "|" [u.id, u.first_name, u.last_name, u.email, u.role, u.status,
    u.phone.getD "", u.photo.getD ""]

/-- A pending proposal of the nurse to the aide for shift "s1". -/
def offer : Exchange :=
  { id := "e1", shift_id := "s1", from_user_id := "u1", to_user_id := "u2",
    status := "pending", created_at := "2024-05-04" }

end Sample

/-! ## Theorems -/

/-- C6: for every list of shifts returned by the server, `fetchShifts` stores exactly the
sublist, in the original order, of the shifts owned by the current user whose status is not
paid, and the selectable shift values are the ids of those shifts. -/
theorem exchange_shift_choices (user : User) (s : ExchangesPage.State) (data : List Shift) :
    (ExchangesPage.fetchShifts user s (.ok data)).shifts
        = data.filter (fun sh => decide (sh.user_id = user.id ∧ sh.status ≠ "paid"))
    ∧ List.Sublist (ExchangesPage.fetchShifts user s (.ok data)).shifts data
    ∧ (∀ sh, sh ∈ (ExchangesPage.fetchShifts user s (.ok data)).shifts
        ↔ sh ∈ data ∧ sh.user_id = user.id ∧ sh.status ≠ "paid")
    ∧ ExchangesPage.shiftOptions (ExchangesPage.fetchShifts user s (.ok data))
        = "" :: (data.filter
            (fun sh => decide (sh.user_id = user.id ∧ sh.status ≠ "paid"))).map (fun sh => sh.id) := by
  have h : (ExchangesPage.fetchShifts user s (.ok data)).shifts
      = data.filter (fun sh => decide (sh.user_id = user.id ∧ sh.status ≠ "paid")) := by
    simp only [ExchangesPage.fetchShifts]
    congr 1
    funext sh
    by_cases h1 : sh.user_id = user.id <;> by_cases h2 : sh.status = "paid" <;> simp [h1, h2]
  refine ⟨h, ?_, ?_, ?_⟩
  · rw [h]; exact List.filter_sublist _
  · intro sh; rw [h]; simp [List.mem_filter]
  · simp only [ExchangesPage.shiftOptions, h]

/-- C7: for every list of users returned by the server, `fetchUsers` of the exchanges page
stores exactly the sublist, in the original order, of the users that are approved, are not
admins and are not the current user, and the selectable target values are their ids. -/
theorem exchange_target_choices (user : User) (s : ExchangesPage.State) (data : List User) :
    (ExchangesPage.fetchUsers user s (.ok data)).users
        = data.filter
            (fun u => decide (u.status = "approved" ∧ u.role ≠ "admin" ∧ u.id ≠ user.id))
    ∧ List.Sublist (ExchangesPage.fetchUsers user s (.ok data)).users data
    ∧ (∀ u, u ∈ (ExchangesPage.fetchUsers user s (.ok data)).users
        ↔ u ∈ data ∧ u.status = "approved" ∧ u.role ≠ "admin" ∧ u.id ≠ user.id)
    ∧ ExchangesPage.userOptions (ExchangesPage.fetchUsers user s (.ok data))
        = "" :: (data.filter
            (fun u => decide (u.status = "approved" ∧ u.role ≠ "admin" ∧ u.id ≠ user.id))).map
              (fun u => u.id) := by
  have h : (ExchangesPage.fetchUsers user s (.ok data)).users
      = data.filter
          (fun u => decide (u.status = "approved" ∧ u.role ≠ "admin" ∧ u.id ≠ user.id)) := by
    simp only [ExchangesPage.fetchUsers]
    congr 1
    funext u
    by_cases h1 : u.status = "approved" <;> by_cases h2 : u.id = user.id <;>
      by_cases h3 : u.role = "admin" <;> simp [h1, h2, h3]
  refine ⟨h, ?_, ?_, ?_⟩
  · rw [h]; exact List.filter_sublist _
  · intro u; rw [h]; simp [List.mem_filter]
  · simp only [ExchangesPage.userOptions, h]

/-- C4: the validate action of a shift card is offered exactly when the viewer is an admin
and the shift is pending; when offered it is the single request
`updateShiftStatus(shift.id, 'validated')`, so the only status it asks for is validated. -/
theorem validate_action_offered (user : User) (shift : Shift) :
    (ShiftsPage.cardActions user shift ≠ [] ↔ user.role = "admin" ∧ shift.status = "pending")
    ∧ (user.role = "admin" ∧ shift.status = "pending" →
        ShiftsPage.cardActions user shift = [ShiftsPage.updateShiftStatus shift.id "validated"])
    ∧ (∀ shiftId status, ShiftsPage.updateShiftStatus shiftId status
          ∈ ShiftsPage.cardActions user shift → shiftId = shift.id ∧ status = "validated")
    ∧ (∀ r ∈ ShiftsPage.cardActions user shift,
        shiftStatusTarget r = some (shift.id, "validated")) := by
  by_cases h1 : user.role = "admin" <;> by_cases h2 : shift.status = "pending" <;>
    simp [ShiftsPage.cardActions, ShiftsPage.updateShiftStatus, shiftStatusTarget, getProp,
      h1, h2]

/-- C9: the accept and reject actions of an exchange card are offered exactly when the
exchange is addressed to the viewer and is pending; they are then the two requests
`updateExchange(exchange.id, 'accepted')` and `updateExchange(exchange.id, 'rejected')`.
Nothing is offered to a viewer who is not the target (the proposer of an exchange with a
distinct target, a third party) nor on an accepted or rejected exchange, and no other
status is ever requested. -/
theorem resolve_actions_offered (user : User) (exchange : Exchange) :
    (ExchangesPage.cardActions user exchange ≠ []
        ↔ exchange.to_user_id = user.id ∧ exchange.status = "pending")
    ∧ (exchange.to_user_id = user.id ∧ exchange.status = "pending" →
        ExchangesPage.cardActions user exchange
          = [ExchangesPage.updateExchange exchange.id "accepted",
             ExchangesPage.updateExchange exchange.id "rejected"])
    ∧ (exchange.to_user_id ≠ user.id → ExchangesPage.cardActions user exchange = [])
    ∧ (exchange.from_user_id = user.id ∧ exchange.to_user_id ≠ exchange.from_user_id →
        ExchangesPage.cardActions user exchange = [])
    ∧ (exchange.status = "accepted" ∨ exchange.status = "rejected" →
        ExchangesPage.cardActions user exchange = [])
    ∧ (∀ exchangeId status, ExchangesPage.updateExchange exchangeId status
          ∈ ExchangesPage.cardActions user exchange →
        exchangeId = exchange.id ∧ (status = "accepted" ∨ status = "rejected")) := by
  by_cases h1 : exchange.to_user_id = user.id <;>
    by_cases h2 : exchange.status = "pending" <;>
    simp [ExchangesPage.cardActions, ExchangesPage.updateExchange, h1, h2]
  refine ⟨fun h => h.symm, ?_⟩
  rintro _ _ (⟨rfl, rfl⟩ | ⟨rfl, rfl⟩) <;> simp

/-- C5: a shift listed as paid, and likewise one listed as validated, has no status action
for any viewer; among all requests the shift, exchange and payslip pages can issue, the
shift status updates are exactly requests to set 'validated' on a shift the shifts page
lists as pending, offered to an admin; and no call of any other page is a shift status
update.  So the client requests no transition other than pending to validated, and none
that leads back to pending or validated from paid. -/
theorem shift_status_requests (parseFloat : String → JSNumber) (user : User)
    (sp : ShiftsPage.State) (ep : ExchangesPage.State) (pp : PayslipsPage.State)
    (shift : Shift) :
    (shift.status = "paid" ∨ shift.status = "validated" →
        ShiftsPage.cardActions user shift = [])
    ∧ (∀ r ∈ shiftPagesRequests parseFloat user sp ep pp, ∀ shiftId status,
        shiftStatusTarget r = some (shiftId, status) →
          status = "validated" ∧ user.role = "admin"
          ∧ ∃ sh ∈ sp.shifts, sh.id = shiftId ∧ sh.status = "pending")
    ∧ (∀ c : OtherCall, shiftStatusTarget c.request = none) := by
  refine ⟨?_, ?_, ?_⟩
  · rintro (h | h) <;> simp [ShiftsPage.cardActions, h]
  · intro r hr shiftId status ht
    simp only [shiftPagesRequests, List.mem_cons, List.mem_append, List.mem_flatten,
      List.mem_map, List.mem_singleton, List.cons_append] at hr
    rcases hr with h | (h | h | h) | h
    · subst h
      simp [shiftStatusTarget, ShiftsPage.handleSubmitRequest] at ht
    · obtain ⟨l, ⟨sh, hsh, rfl⟩, hrl⟩ := h
      by_cases h1 : user.role = "admin" <;> by_cases h2 : sh.status = "pending" <;>
        simp [ShiftsPage.cardActions, h1, h2] at hrl
      subst hrl
      simp [shiftStatusTarget, ShiftsPage.updateShiftStatus, getProp] at ht
      exact ⟨ht.2.symm, h1, sh, hsh, ht.1, h2⟩
    · subst h
      simp [shiftStatusTarget, ExchangesPage.handleSubmitRequest] at ht
    · obtain ⟨l, ⟨e, _, rfl⟩, hrl⟩ := h
      by_cases h1 : e.to_user_id = user.id <;> by_cases h2 : e.status = "pending" <;>
        simp [ExchangesPage.cardActions, h1, h2] at hrl
      rcases hrl with h | h <;> subst h <;>
        simp [shiftStatusTarget, ExchangesPage.updateExchange] at ht
    · simp only [List.not_mem_nil, or_false] at h
      subst h
      simp [shiftStatusTarget, PayslipsPage.handleGenerateRequest] at ht
  · intro c
    cases c <;>
      simp [OtherCall.request, shiftStatusTarget, SchedulesPage.handleSubmitRequest,
        InstitutionsPage.handleSubmitRequest, ProfilePage.handleSubmitRequest,
        MessagesPage.markReadRequest, MessagesPage.sendMessageRequest,
        NotificationsPage.markAsRead, NotificationsPage.markAllAsRead,
        UsersPage.updateUserStatus]

/-- The target select never holds the viewer: the users offered exclude the viewer, and the
selection is the placeholder or one of the users offered when it was made. -/
theorem ExchangesPage.selection_invariant (user : User) (s : ExchangesPage.State)
    (hs : ExchangesPage.Reachable user s) :
    (∀ u ∈ s.users, u.id ≠ user.id) ∧ (s.selectedUser = "" ∨ s.selectedUser ≠ user.id) := by
  induction hs with
  | mount => simp [ExchangesPage.init]
  | next ev _ hstep ih =>
    obtain ⟨ihu, ihs⟩ := ih
    cases ev with
    | exchangesFetched res =>
      cases res <;> simp only [ExchangesPage.step, Option.some.injEq] at hstep <;>
        subst hstep <;> exact ⟨ihu, ihs⟩
    | shiftsFetched res =>
      cases res <;> simp only [ExchangesPage.step, Option.some.injEq] at hstep <;>
        subst hstep <;> exact ⟨ihu, ihs⟩
    | usersFetched res =>
      cases res with
      | error e =>
        simp only [ExchangesPage.step, Option.some.injEq] at hstep
        subst hstep
        exact ⟨ihu, ihs⟩
      | ok data =>
        simp only [ExchangesPage.step, Option.some.injEq] at hstep
        subst hstep
        refine ⟨?_, ihs⟩
        intro u hu
        simp only [ExchangesPage.fetchUsers, List.mem_filter, Bool.and_eq_true, bne_iff_ne,
          ne_eq] at hu
        exact hu.2.1.2
    | dialogToggled b =>
      simp only [ExchangesPage.step, Option.some.injEq] at hstep
      subst hstep
      exact ⟨ihu, ihs⟩
    | shiftChosen v =>
      simp only [ExchangesPage.step] at hstep
      split at hstep
      · simp only [Option.some.injEq] at hstep
        subst hstep
        exact ⟨ihu, ihs⟩
      · exact absurd hstep (by simp)
    | userChosen v =>
      simp only [ExchangesPage.step] at hstep
      split at hstep
      · rename_i hv
        simp only [Option.some.injEq] at hstep
        subst hstep
        refine ⟨ihu, ?_⟩
        simp only [ExchangesPage.userOptions, List.mem_cons, List.mem_map] at hv
        rcases hv with hv | ⟨u, hu, rfl⟩
        · exact Or.inl hv
        · exact Or.inr (ihu u hu)
      · exact absurd hstep (by simp)
    | submitted res =>
      simp only [ExchangesPage.step] at hstep
      split at hstep
      · simp only [Option.some.injEq] at hstep
        subst hstep
        cases res with
        | error e => exact ⟨ihu, ihs⟩
        | ok x => exact ⟨ihu, Or.inl rfl⟩
      · exact absurd hstep (by simp)

/-- C8: in every state the propose-exchange form can reach in which the submit handler can
run, the `to_user_id` that `handleSubmit` posts is the selected user and differs from the
proposing user's id; and a create request whose target is the caller is answered with a
validation error and leaves the stored exchanges as they were. -/
theorem exchange_target_not_self (user : User) (s : ExchangesPage.State)
    (hs : ExchangesPage.Reachable user s) (hv : ExchangesPage.formValid s = true) :
    (ExchangesPage.handleSubmitRequest s).method = "POST"
    ∧ (ExchangesPage.handleSubmitRequest s).path = ["exchanges"]
    ∧ jsonString (getProp ((ExchangesPage.handleSubmitRequest s).body.getD []) "to_user_id")
        = some s.selectedUser
    ∧ s.selectedUser ≠ user.id
    ∧ (∀ (st : ServerState) (caller : User) (newId now : String) (body : JSObject),
        jsonString (getProp body "to_user_id") = some caller.id →
          Server.respond st caller newId now
              { method := "POST", path := ["exchanges"], query := [], body := some body }
            = (st, .error .validationError))
    ∧ (∀ (st st1 : ServerState) (caller : User) (newId now : String) (body : JSObject),
        Server.createExchange st caller newId now body = .ok st1 →
          ∃ e : Exchange, st1.exchanges = st.exchanges ++ [e] ∧ e.from_user_id = caller.id
            ∧ jsonString (getProp body "to_user_id") = some e.to_user_id
            ∧ e.to_user_id ≠ e.from_user_id ∧ e.status = "pending") := by
  refine ⟨rfl, rfl, ?_, ?_, ?_, ?_⟩
  · simp [ExchangesPage.handleSubmitRequest, getProp, jsonString]
  · rcases (ExchangesPage.selection_invariant user s hs).2 with h | h
    · simp [ExchangesPage.formValid, h] at hv
    · exact h
  · intro st caller newId now body hto
    simp only [Server.respond, Server.handle, Option.getD_some, Server.createExchange, hto]
    cases jsonString (getProp body "shift_id") <;> simp
  · intro st st1 caller newId now body hok
    simp only [Server.createExchange] at hok
    split at hok
    · rename_i shiftId toUserId _ hto
      split at hok
      · exact absurd hok (by simp)
      · rename_i hne
        split at hok
        · exact absurd hok (by simp)
        · split at hok
          · exact absurd hok (by simp)
          · simp only [Except.ok.injEq] at hok
            subst hok
            exact ⟨_, rfl, rfl, hto, hne, rfl⟩
    · exact absurd hok (by simp)

/-- The sample proposal state is reached by loading the lists, opening the dialog and using
both selects. -/
theorem Sample.proposal_reachable : ExchangesPage.Reachable Sample.nurse Sample.proposal := by
  have h0 : ExchangesPage.Reachable Sample.nurse _ := ExchangesPage.Reachable.mount
  have h1 := ExchangesPage.Reachable.next
    (.shiftsFetched (.ok [Sample.shift "s1" "pending", Sample.shift "s9" "paid"])) h0 rfl
  have h2 := ExchangesPage.Reachable.next
    (.usersFetched (.ok [Sample.nurse, Sample.aide, Sample.admin])) h1 rfl
  have h3 := ExchangesPage.Reachable.next (.dialogToggled true) h2 rfl
  have h4 := ExchangesPage.Reachable.next (t := { Sample.proposal with selectedUser := "" })
    (.shiftChosen "s1") h3 (by decide)
  exact ExchangesPage.Reachable.next (.userChosen "u2") h4 (by decide)

/-- Witness for C8 at the sample proposal. -/
theorem exchange_target_not_self_witness :
    ExchangesPage.Reachable Sample.nurse Sample.proposal
    ∧ ExchangesPage.formValid Sample.proposal = true
    ∧ Sample.proposal.selectedUser ≠ Sample.nurse.id
    ∧ Server.respond Sample.store Sample.nurse "e1" "2024-05-04"
          { method := "POST", path := ["exchanges"], query := [],
            body := some [("shift_id", .str "s1"), ("to_user_id", .str "u1")] }
        = (Sample.store, .error .validationError) :=
  have h := exchange_target_not_self Sample.nurse Sample.proposal Sample.proposal_reachable
    (by decide)
  ⟨Sample.proposal_reachable, by decide, h.2.2.2.1,
    h.2.2.2.2.1 Sample.store Sample.nurse "e1" "2024-05-04" _ (by decide)⟩

/-- The request of `updateExchange` is routed to the resolve handler. -/
theorem Server.handle_updateExchange (st : ServerState) (caller : User)
    (newId now exchangeId status : String) :
    Server.handle st caller newId now (ExchangesPage.updateExchange exchangeId status)
      = Server.resolveExchange st caller exchangeId status := by
  simp [Server.handle, ExchangesPage.updateExchange, getProp]

/-- C10: let `e` be the stored exchange that `exchangeId` names.  Whenever the request of
`updateExchange(exchangeId, 'accepted')` succeeds, the caller is the target of `e`, `e` was
pending, every shift with the id `e.shift_id` is owned by `e.to_user_id` afterwards, the
shifts are otherwise the same, and `e` is stored as accepted.  The request does succeed
when the target sends it for a pending exchange. -/
theorem accepted_exchange_reassigns_shift (st : ServerState) (caller : User)
    (newId now exchangeId : String) (e : Exchange)
    (hfind : st.exchanges.find? (fun x => x.id == exchangeId) = some e) :
    (∀ st1, Server.handle st caller newId now (ExchangesPage.updateExchange exchangeId "accepted")
          = .ok st1 →
        e.to_user_id = caller.id ∧ e.status = "pending"
        ∧ (∀ sh ∈ st1.shifts, sh.id = e.shift_id → sh.user_id = e.to_user_id)
        ∧ st1.shifts = st.shifts.map
            (fun sh => if sh.id = e.shift_id then { sh with user_id := e.to_user_id } else sh)
        ∧ (∀ sh ∈ st.shifts, sh.id = e.shift_id →
            { sh with user_id := e.to_user_id } ∈ st1.shifts)
        ∧ { e with status := "accepted" } ∈ st1.exchanges)
    ∧ (e.to_user_id = caller.id → e.status = "pending" →
        ∃ st1, Server.handle st caller newId now
          (ExchangesPage.updateExchange exchangeId "accepted") = .ok st1) := by
  have hid : e.id = exchangeId := by
    have := List.find?_some hfind
    simpa using this
  have hmem : e ∈ st.exchanges := List.mem_of_find?_eq_some hfind
  constructor
  · intro st1 hok
    rw [Server.handle_updateExchange] at hok
    simp only [Server.resolveExchange, hfind] at hok
    have hne : ¬ caller.id = e.to_user_id → ¬ e.to_user_id = caller.id := fun h h0 => h h0.symm
    by_cases h1 : caller.id = e.to_user_id
    · by_cases h2 : e.status = "pending"
      · simp [h1, h2] at hok
        subst hok
        refine ⟨h1.symm, h2, ?_, rfl, ?_, ?_⟩
        · intro sh hsh hshid
          simp only [List.mem_map] at hsh
          obtain ⟨x, _, hx⟩ := hsh
          by_cases h3 : x.id = e.shift_id
          · simp only [h3, if_true] at hx
            subst hx
            rfl
          · simp only [h3, if_false] at hx
            subst hx
            exact absurd hshid h3
        · intro sh hsh hshid
          simp only [List.mem_map]
          exact ⟨sh, hsh, by simp [hshid]⟩
        · simp only [List.mem_map]
          exact ⟨e, hmem, by simp [hid]⟩
      · simp [h1, h2] at hok
    · simp [hne h1] at hok
  · intro h1 h2
    rw [Server.handle_updateExchange]
    simp [Server.resolveExchange, hfind, h1, h2]

/-- Witness for C10: the aide accepts the nurse's pending proposal for shift "s1". -/
theorem accepted_exchange_reassigns_shift_witness :
    ({ Sample.store with exchanges := [Sample.offer] } : ServerState).exchanges.find?
        (fun x => x.id == "e1") = some Sample.offer
    ∧ ∃ st1, Server.handle { Sample.store with exchanges := [Sample.offer] } Sample.aide
          "n1" "2024-05-04" (ExchangesPage.updateExchange "e1" "accepted") = .ok st1
        ∧ ∀ sh ∈ st1.shifts, sh.id = "s1" → sh.user_id = "u2" := by
  have h := accepted_exchange_reassigns_shift { Sample.store with exchanges := [Sample.offer] }
    Sample.aide "n1" "2024-05-04" "e1" Sample.offer (by decide)
  obtain ⟨st1, h1⟩ := h.2 rfl rfl
  exact ⟨by decide, st1, h1, (h.1 st1 h1).2.2.1⟩

/-- Rounding to two decimals moves an amount by at most half a cent. -/
theorem round2_near (q : ℚ) : |round2 q - q| ≤ 1 / 200 := by
  have h := abs_sub_round (q * 100)
  have e : round2 q - q = -((q * 100 - (round (q * 100) : ℤ)) / 100) := by
    simp only [round2]; ring
  rw [e, abs_neg, abs_div]
  have h100 : |(100 : ℚ)| = 100 := abs_of_pos (by norm_num)
  rw [h100, div_le_iff₀ (by norm_num)]
  calc |q * 100 - (round (q * 100) : ℤ)| ≤ 1 / 2 := h
    _ = 1 / 200 * 100 := by norm_num

/-- A rounded amount is a whole number of cents. -/
theorem round2_cents (q : ℚ) : ∃ n : ℤ, round2 q = n / 100 := ⟨round (q * 100), rfl⟩

/-- An amount that is already a whole number of cents is left alone. -/
theorem round2_of_cents (n : ℤ) : round2 (n / 100) = n / 100 := by
  simp [round2]

/-- The request of `handleGenerate` is routed to the payslip generator. -/
theorem Server.handle_handleGenerate (st : ServerState) (caller : User) (newId now : String)
    (s : PayslipsPage.State) :
    Server.handle st caller newId now (PayslipsPage.handleGenerateRequest s)
      = (Server.generatePayslip st caller newId s.selectedUserId s.period).map Prod.fst := by
  simp [Server.handle, PayslipsPage.handleGenerateRequest, getProp]

/-- C1: every payslip that payslip generation produces has as gross total the sum of the
totals of the selected shifts (the user's validated shifts of the period), as commission
that gross total times 0.07 rounded to two decimals (a whole number of cents within half a
cent of 7%), and as net total the gross total minus the commission.  When the selection is
two shifts of total 165.00 the payslip shows gross 330.00, commission 23.10, net 306.90. -/
theorem payslip_amounts (st : ServerState) (caller : User) (newId userId period : String)
    (st1 : ServerState) (p : Payslip)
    (h : Server.generatePayslip st caller newId userId period = .ok (st1, p)) :
    p.shifts = (st.shifts.filter (Server.eligible userId period)).map (fun sh => sh.id)
    ∧ p.gross_total
        = ((st.shifts.filter (Server.eligible userId period)).map (fun sh => sh.total)).sum
    ∧ p.commission = round2 (p.gross_total * 7 / 100)
    ∧ (∃ n : ℤ, p.commission = n / 100)
    ∧ |p.commission - p.gross_total * 7 / 100| ≤ 1 / 200
    ∧ p.net_total = p.gross_total - p.commission
    ∧ p ∈ st1.payslips
    ∧ (∀ a b, st.shifts.filter (Server.eligible userId period) = [a, b] →
        a.total = 165 → b.total = 165 →
        p.gross_total = 330 ∧ p.commission = 2310 / 100 ∧ p.net_total = 30690 / 100) := by
  simp only [Server.generatePayslip] at h
  split at h
  · exact absurd h (by simp)
  · split at h
    · exact absurd h (by simp)
    · simp only [Except.ok.injEq, Prod.mk.injEq] at h
      obtain ⟨h1, h2⟩ := h
      subst h2
      subst h1
      refine ⟨rfl, rfl, rfl, round2_cents _, round2_near _, rfl, by simp, ?_⟩
      intro a b hab ha hb
      have hg : ((st.shifts.filter (Server.eligible userId period)).map
          (fun sh => sh.total)).sum = 330 := by
        rw [hab]; simp [ha, hb]; norm_num
      have hc : round2 ((330 : ℚ) * 7 / 100) = 2310 / 100 := by
        have := round2_of_cents 2310
        norm_num at this ⊢
        exact this
      simp only [hg, hc]
      norm_num

/-- Witness for C1: the admin generates the nurse's payslip for May 2024 from the sample
store, which holds two validated shifts of total 165.00. -/
theorem payslip_amounts_witness :
    ∃ st1 p, Server.generatePayslip Sample.store Sample.admin "p1" "u1" "2024-05" = .ok (st1, p)
      ∧ p.gross_total = 330 ∧ p.commission = 2310 / 100 ∧ p.net_total = 30690 / 100 := by
  refine ⟨_, _, rfl, ?_⟩
  exact (payslip_amounts Sample.store Sample.admin "p1" "u1" "2024-05" _ _ rfl).2.2.2.2.2.2.2
    (Sample.shift "s1" "validated") (Sample.shift "s2" "validated") rfl rfl rfl

/-- What a successful create-shift call stores. -/
theorem Server.createShift_ok (st st1 : ServerState) (newId : String) (body : JSObject)
    (h : Server.createShift st newId body = .ok st1) :
    ∃ sh : Shift, st1 = { st with shifts := st.shifts ++ [sh] }
      ∧ sh.id = newId ∧ sh.status = "pending"
      ∧ jsonNumber (getProp body "hours") = some sh.hours
      ∧ jsonNumber (getProp body "hourly_rate") = some sh.hourly_rate
      ∧ jsonNumber (getProp body "travel_cost") = some sh.travel_cost
      ∧ 0 < sh.hours ∧ 0 ≤ sh.hourly_rate ∧ 0 ≤ sh.travel_cost
      ∧ sh.total = round2 (sh.hours * sh.hourly_rate + sh.travel_cost) := by
  simp only [Server.createShift] at h
  split at h
  · rename_i uid iid date hours rate travel h1 h2 h3 h4 h5 h6
    split at h
    · rename_i hv
      simp only [Except.ok.injEq] at h
      subst h
      exact ⟨_, rfl, rfl, rfl, h4, h5, h6, hv.1, hv.2.1, hv.2.2, rfl⟩
    · exact absurd h (by simp)
  · exact absurd h (by simp)

/-- Every handler keeps the amounts of the stored shifts and stores new shifts with the total
computed from their own amounts. -/
theorem Server.handle_totals (st st1 : ServerState) (caller : User) (newId now : String)
    (req : Request) (h : Server.handle st caller newId now req = .ok st1)
    (hinv : ∀ sh ∈ st.shifts, sh.total = round2 (sh.hours * sh.hourly_rate + sh.travel_cost)) :
    ∀ sh ∈ st1.shifts, sh.total = round2 (sh.hours * sh.hourly_rate + sh.travel_cost) := by
  have hmap : ∀ f : Shift → Shift,
      (∀ x, (f x).total = x.total ∧ (f x).hours = x.hours ∧ (f x).hourly_rate = x.hourly_rate
        ∧ (f x).travel_cost = x.travel_cost) →
      ∀ sh ∈ st.shifts.map f, sh.total = round2 (sh.hours * sh.hourly_rate + sh.travel_cost) := by
    intro f hf sh hsh
    simp only [List.mem_map] at hsh
    obtain ⟨x, hx, rfl⟩ := hsh
    obtain ⟨h1, h2, h3, h4⟩ := hf x
    rw [h1, h2, h3, h4]
    exact hinv x hx
  simp only [Server.handle] at h
  split at h
  · obtain ⟨sh0, rfl, -, -, -, -, -, -, -, -, ht⟩ := Server.createShift_ok _ _ _ _ h
    intro sh hsh
    simp only [List.mem_append, List.mem_singleton] at hsh
    rcases hsh with hsh | rfl
    · exact hinv sh hsh
    · exact ht
  · split at h
    · simp only [Server.updateShiftStatus] at h
      split at h
      · exact absurd h (by simp)
      · split at h
        · exact absurd h (by simp)
        · split at h
          · simp only [Except.ok.injEq] at h
            subst h
            exact hmap _ (fun x => by split <;> simp)
          · exact absurd h (by simp)
    · exact absurd h (by simp)
  · split at h
    · simp only [Server.generatePayslip] at h
      split at h
      · exact absurd h (by simp [Except.map])
      · split at h
        · exact absurd h (by simp [Except.map])
        · simp only [Except.map, Except.ok.injEq] at h
          subst h
          exact hmap _ (fun x => by split <;> simp)
    · exact absurd h (by simp)
  · simp only [Server.createExchange] at h
    split at h
    · split at h
      · exact absurd h (by simp)
      · split at h
        · exact absurd h (by simp)
        · split at h
          · exact absurd h (by simp)
          · simp only [Except.ok.injEq] at h
            subst h
            exact hinv
    · exact absurd h (by simp)
  · split at h
    · simp only [Server.resolveExchange] at h
      split at h
      · exact absurd h (by simp)
      · split at h
        · exact absurd h (by simp)
        · split at h
          · exact absurd h (by simp)
          · split at h
            · exact absurd h (by simp)
            · simp only [Except.ok.injEq] at h
              subst h
              simp only
              split
              · exact hmap _ (fun x => by split <;> simp)
              · exact hinv
    · exact absurd h (by simp)
  · exact absurd h (by simp)

/-- Every stored shift has the total the server computed from its own amounts. -/
theorem Server.totals_invariant (st : ServerState) (hst : Server.Reachable st) :
    ∀ sh ∈ st.shifts, sh.total = round2 (sh.hours * sh.hourly_rate + sh.travel_cost) := by
  induction hst with
  | start users => simp [Server.fresh]
  | request caller newId now req _ hstep ih =>
    exact Server.handle_totals _ _ caller newId now req hstep ih

/-- Writing an own key keeps the keys of an object. -/
theorem keys_setProp_of_mem {α : Type} (o : List (String × α)) (k : String) (v : α)
    (h : k ∈ keys o) : keys (setProp o k v) = keys o := by
  induction o with
  | nil => simp [keys] at h
  | cons kv rest ih =>
    obtain ⟨k1, v1⟩ := kv
    by_cases hk : k1 = k
    · simp [setProp, keys, hk]
    · have hr : k ∈ keys rest := by
        simp only [keys, List.map_cons, List.mem_cons] at h
        rcases h with h | h
        · exact absurd h.symm hk
        · exact h
      have := ih hr
      simp only [keys] at this
      simp [setProp, keys, hk, this]

/-- Reading a key an object does not own gives `undefined`. -/
theorem getProp_of_not_mem {α : Type} (o : List (String × α)) (k : String)
    (h : k ∉ keys o) : getProp o k = none := by
  induction o with
  | nil => rfl
  | cons kv rest ih =>
    obtain ⟨k1, v1⟩ := kv
    simp only [keys, List.map_cons, List.mem_cons, not_or] at h
    have hk : ¬ k1 = k := fun e => h.1 e.symm
    simp only [getProp, hk, if_false]
    exact ih h.2

/-- The shift form always has the six keys it starts with. -/
theorem ShiftsPage.form_keys (user : User) (s : ShiftsPage.State)
    (hs : ShiftsPage.Reachable user s) :
    keys s.formData
      = ["user_id", "institution_id", "date", "hours", "hourly_rate", "travel_cost"] := by
  induction hs with
  | mount => rfl
  | @next s0 _ ev _ hstep ih =>
    cases ev with
    | shiftsFetched res =>
      cases res <;> simp only [ShiftsPage.step, Option.some.injEq] at hstep <;>
        subst hstep <;> exact ih
    | institutionsFetched res =>
      cases res <;> simp only [ShiftsPage.step, Option.some.injEq] at hstep <;>
        subst hstep <;> exact ih
    | usersFetched res =>
      simp only [ShiftsPage.step] at hstep
      split at hstep
      · cases res <;> simp only [Option.some.injEq] at hstep <;> subst hstep <;> exact ih
      · exact absurd hstep (by simp)
    | dialogToggled b =>
      simp only [ShiftsPage.step, Option.some.injEq] at hstep
      subst hstep
      exact ih
    | changed field value =>
      simp only [ShiftsPage.step] at hstep
      split at hstep
      · rename_i hc
        simp only [Option.some.injEq] at hstep
        subst hstep
        have hmem : field ∈ keys s0.formData := by
          rw [ih]
          have := hc.1
          simp only [ShiftsPage.controls, List.mem_append, List.mem_cons] at this ⊢
          rcases this with h | h
          · split at h
            · simp only [List.mem_singleton] at h
              exact Or.inl h
            · simp at h
          · exact Or.inr (by simpa using h)
        simp only [ShiftsPage.onChange]
        rw [keys_setProp_of_mem _ _ _ hmem, ih]
      · exact absurd hstep (by simp)
    | submitted res =>
      simp only [ShiftsPage.step] at hstep
      split at hstep
      · simp only [Option.some.injEq] at hstep
        subst hstep
        cases res with
        | error e => exact ih
        | ok x => rfl
      · exact absurd hstep (by simp)

/-- The payload of the shift form has the keys of the form. -/
theorem ShiftsPage.payload_keys (parseFloat : String → JSNumber) (formData : FormData)
    (h : keys formData
      = ["user_id", "institution_id", "date", "hours", "hourly_rate", "travel_cost"]) :
    keys (ShiftsPage.payload parseFloat formData)
      = ["user_id", "institution_id", "date", "hours", "hourly_rate", "travel_cost"] := by
  have h0 : keys (formData.map (fun kv => (kv.1, JSValue.str kv.2))) = keys formData := by
    simp [keys, Function.comp_def]
  simp only [ShiftsPage.payload]
  rw [keys_setProp_of_mem, keys_setProp_of_mem, keys_setProp_of_mem, h0, h]
  · rw [h0, h]; simp
  · rw [keys_setProp_of_mem, h0, h]
    · simp
    · rw [h0, h]; simp
  · rw [keys_setProp_of_mem, keys_setProp_of_mem, h0, h]
    · simp
    · rw [h0, h]; simp
    · rw [keys_setProp_of_mem, h0, h]
      · simp
      · rw [h0, h]; simp

/-- C2: every shift the server stores has total equal to hours times hourly rate plus
travel cost, rounded to two decimals (so within half a cent of the exact value; 8 hours at
20 with 5 of travel give 165.00).  The total is the server's: in every state of the shift
form the payload `handleSubmit` posts has exactly the six keys of the form and no `total`. -/
theorem shift_total_server_side (st : ServerState) (hst : Server.Reachable st)
    (parseFloat : String → JSNumber) (user : User) (s : ShiftsPage.State)
    (hs : ShiftsPage.Reachable user s) :
    (∀ sh ∈ st.shifts,
        sh.total = round2 (sh.hours * sh.hourly_rate + sh.travel_cost)
        ∧ |sh.total - (sh.hours * sh.hourly_rate + sh.travel_cost)| ≤ 1 / 200
        ∧ (sh.hours = 8 → sh.hourly_rate = 20 → sh.travel_cost = 5 → sh.total = 165))
    ∧ (ShiftsPage.handleSubmitRequest parseFloat s).body
        = some (ShiftsPage.payload parseFloat s.formData)
    ∧ keys (ShiftsPage.payload parseFloat s.formData)
        = ["user_id", "institution_id", "date", "hours", "hourly_rate", "travel_cost"]
    ∧ getProp (ShiftsPage.payload parseFloat s.formData) "total" = none := by
  have hk := ShiftsPage.payload_keys parseFloat s.formData (ShiftsPage.form_keys user s hs)
  refine ⟨?_, rfl, hk, ?_⟩
  · intro sh hsh
    have ht := Server.totals_invariant st hst sh hsh
    refine ⟨ht, ?_, ?_⟩
    · rw [ht]; exact round2_near _
    · intro h1 h2 h3
      rw [ht, h1, h2, h3]
      have := round2_of_cents 16500
      norm_num at this ⊢
      exact this
  · apply getProp_of_not_mem
    rw [hk]
    decide

/-- The sample shift form is reached by loading the institutions, opening the dialog and
filling the controls in. -/
theorem Sample.shiftDraft_reachable : ShiftsPage.Reachable Sample.nurse Sample.shiftDraft := by
  have h0 : ShiftsPage.Reachable Sample.nurse _ := ShiftsPage.Reachable.mount
  have h1 := ShiftsPage.Reachable.next
    (.institutionsFetched (.ok [{ id := "i1", name := "Clinique" }])) h0 rfl
  have h2 := ShiftsPage.Reachable.next (.dialogToggled true) h1 rfl
  have h3 := ShiftsPage.Reachable.next
    (t := { Sample.shiftDraft with formData := (setProp (ShiftsPage.emptyForm Sample.nurse)
      "institution_id" "i1") })
    (.changed "institution_id" "i1") h2 (by decide)
  have h4 := ShiftsPage.Reachable.next
    (t := { Sample.shiftDraft with formData := (setProp (setProp
      (ShiftsPage.emptyForm Sample.nurse) "institution_id" "i1") "date" "2024-05-03") })
    (.changed "date" "2024-05-03") h3 (by decide)
  have h5 := ShiftsPage.Reachable.next
    (t := { Sample.shiftDraft with formData := (setProp (setProp (setProp
      (ShiftsPage.emptyForm Sample.nurse) "institution_id" "i1") "date" "2024-05-03")
      "hours" "8") })
    (.changed "hours" "8") h4 (by decide)
  have h6 := ShiftsPage.Reachable.next
    (t := { Sample.shiftDraft with formData := (setProp (setProp (setProp (setProp
      (ShiftsPage.emptyForm Sample.nurse) "institution_id" "i1") "date" "2024-05-03")
      "hours" "8") "hourly_rate" "20") })
    (.changed "hourly_rate" "20") h5 (by decide)
  exact ShiftsPage.Reachable.next (.changed "travel_cost" "5") h6 (by decide)

/-- Posting the sample shift form to a fresh store creates the shift of the scenario. -/
theorem Sample.shiftDraft_posted :
    Server.handle (Server.fresh [Sample.nurse]) Sample.nurse "s1" "2024-05-04"
        (ShiftsPage.handleSubmitRequest Sample.parseFloat Sample.shiftDraft)
      = .ok { Server.fresh [Sample.nurse] with shifts :=
          [{ Sample.shift "s1" "pending" with total := round2 (8 * 20 + 5) }] } := by
  simp [Server.handle, ShiftsPage.handleSubmitRequest, ShiftsPage.payload, Sample.shiftDraft,
    Sample.filledForm, Sample.parseFloat, Sample.shift, setProp, getProp, propString,
    jsonString, jsonNumber, Server.createShift, Server.fresh]

/-- Witness for C2: the nurse posts the sample form to a fresh store. -/
theorem shift_total_server_side_witness :
    Server.Reachable { Server.fresh [Sample.nurse] with shifts :=
        [{ Sample.shift "s1" "pending" with total := round2 (8 * 20 + 5) }] }
    ∧ ShiftsPage.Reachable Sample.nurse Sample.shiftDraft
    ∧ round2 (8 * 20 + 5) = 165
    ∧ getProp (ShiftsPage.payload Sample.parseFloat Sample.shiftDraft.formData) "total"
        = none :=
  have hst := Server.Reachable.request Sample.nurse "s1" "2024-05-04"
    (ShiftsPage.handleSubmitRequest Sample.parseFloat Sample.shiftDraft)
    (Server.Reachable.start [Sample.nurse]) Sample.shiftDraft_posted
  have h := shift_total_server_side _ hst Sample.parseFloat Sample.nurse Sample.shiftDraft
    Sample.shiftDraft_reachable
  ⟨hst, Sample.shiftDraft_reachable,
    (h.1 _ (List.mem_singleton.mpr rfl)).2.2 rfl rfl rfl, h.2.2.2⟩

/-- Reading the key just written gives the value written. -/
theorem getProp_setProp_same {α : Type} (o : List (String × α)) (k : String) (v : α) :
    getProp (setProp o k v) k = some v := by
  induction o with
  | nil => simp [setProp, getProp]
  | cons kv rest ih =>
    obtain ⟨k1, v1⟩ := kv
    by_cases hk : k1 = k
    · simp [setProp, getProp, hk]
    · simp [setProp, getProp, hk, ih]

/-- Writing a key does not change what another key reads. -/
theorem getProp_setProp_other {α : Type} (o : List (String × α)) (k j : String) (v : α)
    (h : k ≠ j) : getProp (setProp o k v) j = getProp o j := by
  induction o with
  | nil => simp [setProp, getProp, h]
  | cons kv rest ih =>
    obtain ⟨k1, v1⟩ := kv
    by_cases hk : k1 = k
    · subst hk
      simp [setProp, getProp, h]
    · by_cases hj : k1 = j
      · simp [setProp, getProp, hk, hj]
        rw [if_neg (fun e => h e.symm)]
        simp [getProp]
      · simp [setProp, getProp, hk, hj, ih]

/-- The three amounts of the shift payload are the `parseFloat` of the form fields. -/
theorem ShiftsPage.payload_amounts (parseFloat : String → JSNumber) (formData : FormData) :
    getProp (ShiftsPage.payload parseFloat formData) "hours"
        = some (.num (parseFloat (propString formData "hours")))
    ∧ getProp (ShiftsPage.payload parseFloat formData) "hourly_rate"
        = some (.num (parseFloat (propString formData "hourly_rate")))
    ∧ getProp (ShiftsPage.payload parseFloat formData) "travel_cost"
        = some (.num (parseFloat (propString formData "travel_cost"))) := by
  refine ⟨?_, ?_, ?_⟩
  · simp only [ShiftsPage.payload]
    rw [getProp_setProp_other _ _ _ _ (by decide), getProp_setProp_other _ _ _ _ (by decide),
      getProp_setProp_same]
  · simp only [ShiftsPage.payload]
    rw [getProp_setProp_other _ _ _ _ (by decide), getProp_setProp_same]
  · simp only [ShiftsPage.payload]
    rw [getProp_setProp_same]

/-- C3: `handleSubmit` posts the form without a check of its own, and the server validates:
for every shift form whose hours, after `parseFloat`, are not greater than 0, or whose
hourly rate or travel cost is negative or `NaN`, the posted request is answered with a
validation error, the stored shifts (the whole store) are as before, and the page keeps its
state. -/
theorem invalid_shift_not_created (parseFloat : String → JSNumber) (user : User)
    (s : ShiftsPage.State) (st : ServerState) (caller : User) (newId now : String)
    (h : (parseFloat (propString s.formData "hours")).gtZero = false
      ∨ (parseFloat (propString s.formData "hourly_rate")).ltZero = true
      ∨ parseFloat (propString s.formData "hourly_rate") = .nan
      ∨ (parseFloat (propString s.formData "travel_cost")).ltZero = true
      ∨ parseFloat (propString s.formData "travel_cost") = .nan) :
    Server.respond st caller newId now (ShiftsPage.handleSubmitRequest parseFloat s)
        = (st, .error .validationError)
    ∧ (Server.respond st caller newId now
        (ShiftsPage.handleSubmitRequest parseFloat s)).1.shifts = st.shifts
    ∧ ShiftsPage.handleSubmit user s
        (Server.respond st caller newId now (ShiftsPage.handleSubmitRequest parseFloat s)).2
        = s := by
  have key : Server.respond st caller newId now (ShiftsPage.handleSubmitRequest parseFloat s)
      = (st, .error .validationError) := by
    obtain ⟨h1, h2, h3⟩ := ShiftsPage.payload_amounts parseFloat s.formData
    simp only [Server.respond, Server.handle, ShiftsPage.handleSubmitRequest,
      Option.getD_some, Server.createShift, h1, h2, h3]
    generalize parseFloat (propString s.formData "hours") = nh at h
    generalize parseFloat (propString s.formData "hourly_rate") = nr at h
    generalize parseFloat (propString s.formData "travel_cost") = nt at h
    generalize jsonString (getProp (ShiftsPage.payload parseFloat s.formData) "user_id") = a
    generalize jsonString (getProp (ShiftsPage.payload parseFloat s.formData) "institution_id")
      = b
    generalize jsonString (getProp (ShiftsPage.payload parseFloat s.formData) "date") = c
    cases a <;> cases b <;> cases c <;> cases nh <;> cases nr <;> cases nt <;>
      simp [jsonNumber, JSNumber.gtZero, JSNumber.ltZero] at h ⊢
    rename_i qh qr qt
    have hbad : ¬ (0 < qh ∧ 0 ≤ qr ∧ 0 ≤ qt) := by
      rintro ⟨p1, p2, p3⟩
      rcases h with h | h | h
      · exact absurd p1 (not_lt.mpr h)
      · exact absurd p2 (not_le.mpr h)
      · exact absurd p3 (not_le.mpr h)
    simp [hbad]
  refine ⟨key, ?_, ?_⟩
  · rw [key]
  · rw [key]; rfl

/-- Witness for C3: the sample form with the hours changed to "-2". -/
theorem invalid_shift_not_created_witness :
    (Sample.parseFloat (propString (ShiftsPage.onChange Sample.shiftDraft "hours" "-2").formData
        "hours")).gtZero = false
    ∧ (Server.respond (Server.fresh [Sample.nurse]) Sample.nurse "s1" "2024-05-04"
        (ShiftsPage.handleSubmitRequest Sample.parseFloat
          (ShiftsPage.onChange Sample.shiftDraft "hours" "-2"))).1.shifts = [] :=
  have h0 : (Sample.parseFloat (propString
      (ShiftsPage.onChange Sample.shiftDraft "hours" "-2").formData "hours")).gtZero = false := by
    simp [Sample.parseFloat, propString, ShiftsPage.onChange, Sample.shiftDraft,
      Sample.filledForm, setProp, getProp, JSNumber.gtZero]
  ⟨h0, (invalid_shift_not_created Sample.parseFloat Sample.nurse
    (ShiftsPage.onChange Sample.shiftDraft "hours" "-2") (Server.fresh [Sample.nurse])
    Sample.nurse "s1" "2024-05-04" (Or.inl h0)).2.1⟩

/-- C11: for an admin viewer whose list has loaded, `UsersPage` renders one card per
filtered user, and the card of a listed user offers the approve and reject actions exactly
when that user is pending; they are then the two requests
`updateUserStatus(u.id, 'approved')` and `updateUserStatus(u.id, 'rejected')`, nothing is
offered on an approved or rejected user, and no other status is ever passed.  Right after
the list has arrived the cards are those of the whole response.  Cards, and so these
actions, are rendered for an admin viewer only. -/
theorem user_status_actions (viewer u : User) (s : UsersPage.State) (data : List User) :
    (UsersPage.cardActions u ≠ [] ↔ u.status = "pending")
    ∧ (u.status = "pending" →
        UsersPage.cardActions u
          = [UsersPage.updateUserStatus u.id "approved",
             UsersPage.updateUserStatus u.id "rejected"])
    ∧ (u.status = "approved" ∨ u.status = "rejected" → UsersPage.cardActions u = [])
    ∧ (∀ userId status, UsersPage.updateUserStatus userId status ∈ UsersPage.cardActions u →
        userId = u.id ∧ (status = "approved" ∨ status = "rejected"))
    ∧ (∀ cards emptyNotice, UsersPage.render viewer s = .page cards emptyNotice →
        viewer.role = "admin"
        ∧ cards = s.filteredUsers.map (fun x => (x, UsersPage.cardActions x)))
    ∧ (viewer.role = "admin" → s.loading = false →
        UsersPage.render viewer s
          = .page (s.filteredUsers.map (fun x => (x, UsersPage.cardActions x)))
              (s.filteredUsers.length == 0))
    ∧ UsersPage.render { viewer with role := "admin" } (UsersPage.fetchUsers s (.ok data))
        = .page (data.map (fun x => (x, UsersPage.cardActions x))) (data.length == 0)
    ∧ UsersPage.render Sample.admin
        (UsersPage.fetchUsers UsersPage.init
          (.ok [{ Sample.nurse with status := "pending" }, Sample.aide]))
        = .page
            [({ Sample.nurse with status := "pending" },
              [UsersPage.updateUserStatus Sample.nurse.id "approved",
               UsersPage.updateUserStatus Sample.nurse.id "rejected"]),
             (Sample.aide, [])]
            false := by
  refine ⟨?_, ?_, ?_, ?_, ?_, ?_, ?_, ?_⟩
  · by_cases h : u.status = "pending" <;> simp [UsersPage.cardActions, h]
  · intro h
    simp [UsersPage.cardActions, h]
  · rintro (h | h) <;> simp [UsersPage.cardActions, h]
  · intro userId status hmem
    by_cases h : u.status = "pending"
    · simp [UsersPage.cardActions, UsersPage.updateUserStatus, h] at hmem
      rcases hmem with ⟨h1, h2⟩ | ⟨h1, h2⟩
      · exact ⟨h1, Or.inl h2⟩
      · exact ⟨h1, Or.inr h2⟩
    · simp [UsersPage.cardActions, h] at hmem
  · intro cards emptyNotice hr
    by_cases h1 : viewer.role = "admin"
    · by_cases h2 : s.loading = true
      · simp [UsersPage.render, h1, h2] at hr
      · simp [UsersPage.render, h1, h2] at hr
        exact ⟨h1, hr.1.symm⟩
    · simp [UsersPage.render, h1] at hr
  · intro h1 h2
    simp [UsersPage.render, h1, h2]
  · simp [UsersPage.render, UsersPage.fetchUsers]
  · decide

/-- C12: for every viewer whose role is not admin, whatever their status, `UsersPage`
returns only the administrators-only notice, so no user card and no approve or reject
action is rendered, whatever the page holds; the institutions page, once its list has
arrived, shows that viewer one card per institution, without the add control. -/
theorem non_admin_sees_no_user_actions (viewer : User) (s : UsersPage.State)
    (t : InstitutionsPage.State) (data : List Institution)
    (h : viewer.role ≠ "admin") :
    UsersPage.render viewer s = .adminOnly
    ∧ (∀ cards emptyNotice, UsersPage.render viewer s ≠ .page cards emptyNotice)
    ∧ InstitutionsPage.render viewer (InstitutionsPage.fetchInstitutions t (.ok data))
        = .page false data (data.length == 0)
    ∧ (t.loading = false →
        InstitutionsPage.render viewer t
          = .page false t.institutions (t.institutions.length == 0)) := by
  have h0 : UsersPage.render viewer s = .adminOnly := by simp [UsersPage.render, h]
  refine ⟨h0, ?_, ?_, ?_⟩
  · intro cards emptyNotice
    rw [h0]
    simp
  · simp [InstitutionsPage.render, InstitutionsPage.fetchInstitutions, h]
  · intro hl
    simp [InstitutionsPage.render, hl, h]

/-- Witness for C12: a nurse whose registration is still pending. -/
theorem non_admin_sees_no_user_actions_witness :
    ({ Sample.nurse with status := "pending" } : User).role ≠ "admin"
    ∧ UsersPage.render { Sample.nurse with status := "pending" }
        (UsersPage.fetchUsers UsersPage.init (.ok [Sample.aide])) = .adminOnly
    ∧ InstitutionsPage.render { Sample.nurse with status := "pending" }
        (InstitutionsPage.fetchInstitutions InstitutionsPage.init
          (.ok [{ id := "i1", name := "Clinique" }]))
        = .page false [{ id := "i1", name := "Clinique" }] false :=
  have h := non_admin_sees_no_user_actions { Sample.nurse with status := "pending" }
    (UsersPage.fetchUsers UsersPage.init (.ok [Sample.aide])) InstitutionsPage.init
    [{ id := "i1", name := "Clinique" }] (by decide)
  ⟨by decide, h.1, h.2.2.1⟩

/-- C20: for every list of users returned by the server, `fetchUsers` of the messages page
stores exactly the sublist, in the original order, of the users that are approved and are
not the current user, admins included, whereas `fetchUsers` of the users page stores the
whole list. -/
theorem contact_list_filter (user : User) (s : MessagesPage.State) (t : UsersPage.State)
    (data : List User) :
    (MessagesPage.fetchUsers user s (.ok data)).users
        = data.filter (fun u => decide (u.status = "approved" ∧ u.id ≠ user.id))
    ∧ List.Sublist (MessagesPage.fetchUsers user s (.ok data)).users data
    ∧ (∀ u, u ∈ (MessagesPage.fetchUsers user s (.ok data)).users
        ↔ u ∈ data ∧ u.status = "approved" ∧ u.id ≠ user.id)
    ∧ (∀ u ∈ data, u.role = "admin" → u.status = "approved" → u.id ≠ user.id →
        u ∈ (MessagesPage.fetchUsers user s (.ok data)).users)
    ∧ (UsersPage.fetchUsers t (.ok data)).users = data
    ∧ (UsersPage.fetchUsers t (.ok data)).filteredUsers = data := by
  have h : (MessagesPage.fetchUsers user s (.ok data)).users
      = data.filter (fun u => decide (u.status = "approved" ∧ u.id ≠ user.id)) := by
    simp only [MessagesPage.fetchUsers]
    congr 1
    funext u
    by_cases h1 : u.status = "approved" <;> by_cases h2 : u.id = user.id <;> simp [h1, h2]
  refine ⟨h, ?_, ?_, ?_, rfl, rfl⟩
  · rw [h]; exact List.filter_sublist _
  · intro u; rw [h]; simp [List.mem_filter]
  · intro u hu _ h2 h3
    rw [h]
    simp [List.mem_filter, hu, h2, h3]

/-- The profile form always holds its four fields in order, the email field is the email
of the current user, and the user keeps id, role, status and email. -/
theorem ProfilePage.shape (stringify : User → String) (user : User)
    (storage : List (String × String)) (c : ProfilePage.Session × ProfilePage.State)
    (hc : ProfilePage.Reachable stringify user storage c) :
    (∃ a b p, c.2.formData
        = [("first_name", a), ("last_name", b), ("phone", p), ("email", c.1.user.email)])
    ∧ c.1.user.id = user.id ∧ c.1.user.role = user.role ∧ c.1.user.status = user.status
    ∧ c.1.user.email = user.email := by
  induction hc with
  | mount => exact ⟨⟨_, _, _, rfl⟩, rfl, rfl, rfl, rfl⟩
  | @next c0 d ev _ hstep ih =>
    obtain ⟨⟨a, b, p, hf⟩, h1, h2, h3, h4⟩ := ih
    cases ev with
    | changed name value =>
      simp only [ProfilePage.step] at hstep
      split at hstep
      · rename_i hn
        simp only [Option.some.injEq] at hstep
        subst hstep
        refine ⟨?_, h1, h2, h3, h4⟩
        simp only [ProfilePage.controls, List.mem_cons, List.mem_singleton,
          List.not_mem_nil, or_false] at hn
        rcases hn with rfl | rfl | rfl
        · exact ⟨value, b, p, by simp [ProfilePage.handleChange, hf, setProp]⟩
        · exact ⟨a, value, p, by simp [ProfilePage.handleChange, hf, setProp]⟩
        · exact ⟨a, b, value, by simp [ProfilePage.handleChange, hf, setProp]⟩
      · exact absurd hstep (by simp)
    | photoLoaded result =>
      simp only [ProfilePage.step, Option.some.injEq] at hstep
      subst hstep
      exact ⟨⟨a, b, p, hf⟩, h1, h2, h3, h4⟩
    | submitted res =>
      simp only [ProfilePage.step] at hstep
      split at hstep
      · simp only [Option.some.injEq] at hstep
        subst hstep
        cases res with
        | error e => exact ⟨⟨a, b, p, hf⟩, h1, h2, h3, h4⟩
        | ok x =>
          cases hp : truthy c0.2.photo with
          | none =>
            simp [ProfilePage.handleSubmit, ProfilePage.updates, ProfilePage.updatedUser,
              hp, hf, setUserProp, h1, h2, h3, h4]
          | some photo =>
            simp [ProfilePage.handleSubmit, ProfilePage.updates, ProfilePage.updatedUser,
              hp, hf, setUserProp, setProp, h1, h2, h3, h4]
      · exact absurd hstep (by simp)

/-- C13, as stated, fails: the payload `handleSubmit` sends for the sample nurse right after
the page is mounted has an `email` field, holding her email. -/
theorem profile_payload_has_email :
    "email" ∈ keys ((ProfilePage.request Sample.nurse (ProfilePage.init Sample.nurse)).body.getD [])
    ∧ getProp ((ProfilePage.request Sample.nurse (ProfilePage.init Sample.nurse)).body.getD [])
        "email" = some (.str "ana@sana.care") := by
  constructor
  · decide
  · rfl

/-- C13, amended: the profile update cannot change the email.  In every state the profile
form can reach, `handleSubmit` sends `PATCH /users/{user.id}` with the fields first_name,
last_name, phone and email, and photo when a photo is set; the email field is the current
user's email, which is the email the page was mounted with. -/
theorem profile_email_unchanged (stringify : User → String) (user : User)
    (storage : List (String × String)) (c : ProfilePage.Session × ProfilePage.State)
    (hc : ProfilePage.Reachable stringify user storage c) :
    (ProfilePage.request c.1.user c.2).method = "PATCH"
    ∧ (ProfilePage.request c.1.user c.2).path = ["users", user.id]
    ∧ keys ((ProfilePage.request c.1.user c.2).body.getD [])
        = ["first_name", "last_name", "phone", "email"]
            ++ (if (truthy c.2.photo).isSome then ["photo"] else [])
    ∧ getProp ((ProfilePage.request c.1.user c.2).body.getD []) "email"
        = some (.str c.1.user.email)
    ∧ c.1.user.email = user.email := by
  obtain ⟨⟨a, b, p, hf⟩, h1, -, -, h4⟩ := ProfilePage.shape stringify user storage c hc
  refine ⟨rfl, ?_, ?_, ?_, h4⟩
  · simp [ProfilePage.request, ProfilePage.handleSubmitRequest, h1]
  · cases hp : truthy c.2.photo <;>
      simp [ProfilePage.request, ProfilePage.handleSubmitRequest, ProfilePage.updates,
        formBody, keys, setProp, hp, hf]
  · cases hp : truthy c.2.photo <;>
      simp [ProfilePage.request, ProfilePage.handleSubmitRequest, ProfilePage.updates,
        formBody, setProp, getProp, hp, hf]

/-- Witness for C13: the profile page of the sample nurse after she changed her phone. -/
theorem profile_email_unchanged_witness :
    ProfilePage.Reachable Sample.stringify Sample.nurse []
      ({ user := Sample.nurse, localStorage := [] },
        ProfilePage.handleChange (ProfilePage.init Sample.nurse) "phone" "0470")
    ∧ getProp ((ProfilePage.request Sample.nurse
        (ProfilePage.handleChange (ProfilePage.init Sample.nurse) "phone" "0470")).body.getD [])
        "email" = some (.str "ana@sana.care") :=
  have hr : ProfilePage.Reachable Sample.stringify Sample.nurse []
      ({ user := Sample.nurse, localStorage := [] },
        ProfilePage.handleChange (ProfilePage.init Sample.nurse) "phone" "0470") :=
    ProfilePage.Reachable.next (.changed "phone" "0470") ProfilePage.Reachable.mount rfl
  ⟨hr, (profile_email_unchanged Sample.stringify Sample.nurse [] _ hr).2.2.2.1⟩

/-- C14: in every state the profile form can reach, the user that `handleSubmit` stores on
success, in the application state and under the key `user` of local storage, is the
previous user with first_name, last_name, phone and email taken from the form and the photo
replaced when one is set; id, role and status are those of the previous user, and so is the
email.  No other key of local storage changes, and a failed request leaves user and storage
as they were. -/
theorem profile_update_frame (stringify : User → String) (user : User)
    (storage : List (String × String)) (c : ProfilePage.Session × ProfilePage.State)
    (hc : ProfilePage.Reachable stringify user storage c) :
    (ProfilePage.handleSubmit stringify c.1 c.2 (.ok ())).1.user
        = { c.1.user with
            first_name := propString c.2.formData "first_name",
            last_name := propString c.2.formData "last_name",
            phone := some (propString c.2.formData "phone"),
            email := propString c.2.formData "email",
            photo := (match truthy c.2.photo with
              | some photo => some photo
              | none => c.1.user.photo) }
    ∧ (ProfilePage.handleSubmit stringify c.1 c.2 (.ok ())).1.user.id = c.1.user.id
    ∧ (ProfilePage.handleSubmit stringify c.1 c.2 (.ok ())).1.user.role = c.1.user.role
    ∧ (ProfilePage.handleSubmit stringify c.1 c.2 (.ok ())).1.user.status = c.1.user.status
    ∧ (ProfilePage.handleSubmit stringify c.1 c.2 (.ok ())).1.user.email = c.1.user.email
    ∧ getProp (ProfilePage.handleSubmit stringify c.1 c.2 (.ok ())).1.localStorage "user"
        = some (stringify (ProfilePage.handleSubmit stringify c.1 c.2 (.ok ())).1.user)
    ∧ (∀ k, k ≠ "user" →
        getProp (ProfilePage.handleSubmit stringify c.1 c.2 (.ok ())).1.localStorage k
          = getProp c.1.localStorage k)
    ∧ (∀ e, (ProfilePage.handleSubmit stringify c.1 c.2 (.error e)).1 = c.1) := by
  obtain ⟨⟨a, b, p, hf⟩, -, -, -, -⟩ := ProfilePage.shape stringify user storage c hc
  have hu : (ProfilePage.handleSubmit stringify c.1 c.2 (.ok ())).1.user
      = { c.1.user with
          first_name := propString c.2.formData "first_name",
          last_name := propString c.2.formData "last_name",
          phone := some (propString c.2.formData "phone"),
          email := propString c.2.formData "email",
          photo := (match truthy c.2.photo with
            | some photo => some photo
            | none => c.1.user.photo) } := by
    cases hp : truthy c.2.photo <;>
      simp [ProfilePage.handleSubmit, ProfilePage.updates, ProfilePage.updatedUser, hp, hf,
        setUserProp, setProp, propString, getProp]
  have he : propString c.2.formData "email" = c.1.user.email := by
    simp [propString, getProp, hf]
  refine ⟨hu, ?_, ?_, ?_, ?_, ?_, ?_, ?_⟩
  · rw [hu]
  · rw [hu]
  · rw [hu]
  · rw [hu]; exact he
  · simp only [ProfilePage.handleSubmit]
    exact getProp_setProp_same _ _ _
  · intro k hk
    simp only [ProfilePage.handleSubmit]
    exact getProp_setProp_other _ _ _ _ (fun h => hk h.symm)
  · intro e
    rfl

/-- Witness for C14: the sample nurse saves a new phone number. -/
theorem profile_update_frame_witness :
    ProfilePage.Reachable Sample.stringify Sample.nurse []
      ({ user := Sample.nurse, localStorage := [] },
        ProfilePage.handleChange (ProfilePage.init Sample.nurse) "phone" "0470")
    ∧ (ProfilePage.handleSubmit Sample.stringify { user := Sample.nurse, localStorage := [] }
        (ProfilePage.handleChange (ProfilePage.init Sample.nurse) "phone" "0470")
        (.ok ())).1.user.role = "infirmier" :=
  have hr : ProfilePage.Reachable Sample.stringify Sample.nurse []
      ({ user := Sample.nurse, localStorage := [] },
        ProfilePage.handleChange (ProfilePage.init Sample.nurse) "phone" "0470") :=
    ProfilePage.Reachable.next (.changed "phone" "0470") ProfilePage.Reachable.mount rfl
  ⟨hr, (profile_update_frame Sample.stringify Sample.nurse [] _ hr).2.2.1⟩

/-- A removed key reads as absent. -/
theorem getProp_removeItem_same (storage : List (String × String)) (key : String) :
    getProp (removeItem storage key) key = none := by
  induction storage with
  | nil => rfl
  | cons kv rest ih =>
    obtain ⟨k, v⟩ := kv
    by_cases hk : k = key
    · simpa [removeItem, hk] using ih
    · have hrest : removeItem ((k, v) :: rest) key = (k, v) :: removeItem rest key := by
        simp [removeItem, hk]
      rw [hrest]
      simp only [getProp, hk, if_false]
      exact ih

/-- Removing a key does not change what another key reads. -/
theorem getProp_removeItem_other (storage : List (String × String)) (key j : String)
    (h : key ≠ j) : getProp (removeItem storage key) j = getProp storage j := by
  induction storage with
  | nil => rfl
  | cons kv rest ih =>
    obtain ⟨k, v⟩ := kv
    by_cases hk : k = key
    · have hrest : removeItem ((k, v) :: rest) key = removeItem rest key := by
        simp [removeItem, hk]
      have hj : ¬ k = j := fun e => h (hk.symm.trans e)
      rw [hrest, ih]
      simp [getProp, hj]
    · have hrest : removeItem ((k, v) :: rest) key = (k, v) :: removeItem rest key := by
        simp [removeItem, hk]
      rw [hrest]
      by_cases hj : k = j
      · simp [getProp, hj]
      · simp [getProp, hj, ih]

/-- C15: on an error whose response has status 401 the rejection handler removes `token`
and `user` from local storage, keeps every other key, and sets the location to the login
page; on an error with another status, or without a response, storage and location are
unchanged; in every case the error passed on is the error received. -/
theorem unauthorized_clears_session (b : Browser) (error : AxiosError) :
    (error.response.map (fun r => r.status) = some 401 →
        getProp (App.onResponseError b error).1.localStorage "token" = none
        ∧ getProp (App.onResponseError b error).1.localStorage "user" = none
        ∧ (∀ k, k ≠ "token" → k ≠ "user" →
            getProp (App.onResponseError b error).1.localStorage k = getProp b.localStorage k)
        ∧ (App.onResponseError b error).1.location = "/login")
    ∧ (error.response.map (fun r => r.status) ≠ some 401 →
        (App.onResponseError b error).1 = b)
    ∧ (error.response = none → (App.onResponseError b error).1 = b)
    ∧ (App.onResponseError b error).2 = error := by
  refine ⟨?_, ?_, ?_, ?_⟩
  · intro h
    simp only [App.onResponseError, h, if_true]
    refine ⟨?_, ?_, ?_, trivial⟩
    · rw [getProp_removeItem_other _ _ _ (by decide)]
      exact getProp_removeItem_same _ _
    · exact getProp_removeItem_same _ _
    · intro k h1 h2
      rw [getProp_removeItem_other _ _ _ (fun e => h2 e.symm),
        getProp_removeItem_other _ _ _ (fun e => h1 e.symm)]
  · intro h
    simp [App.onResponseError, h]
  · intro h
    simp [App.onResponseError, h]
  · by_cases h : error.response.map (fun r => r.status) = some 401 <;>
      simp [App.onResponseError, h]

/-- C16: if local storage holds a non-empty token, the request interceptor returns the config
with the header `Authorization` set to "Bearer " followed by the token, every other header
and the call itself unchanged; if no token is stored, or an empty one, it returns the config
unchanged. -/
theorem bearer_token_attached (b : Browser) (config : App.RequestConfig) :
    (∀ token, getProp b.localStorage "token" = some token → token ≠ "" →
        App.onRequest b config
            = { config with
                headers := setProp config.headers "Authorization" ("Bearer " ++ token) }
        ∧ getProp (App.onRequest b config).headers "Authorization" = some ("Bearer " ++ token)
        ∧ (∀ k, k ≠ "Authorization" →
            getProp (App.onRequest b config).headers k = getProp config.headers k)
        ∧ (App.onRequest b config).request = config.request)
    ∧ (getProp b.localStorage "token" = none → App.onRequest b config = config)
    ∧ (getProp b.localStorage "token" = some "" → App.onRequest b config = config) := by
  refine ⟨?_, ?_, ?_⟩
  · intro token h hne
    have ht : truthy (getProp b.localStorage "token") = some token := by
      simp [truthy, h, hne]
    have he : App.onRequest b config
        = { config with
            headers := setProp config.headers "Authorization" ("Bearer " ++ token) } := by
      simp [App.onRequest, ht]
    refine ⟨he, ?_, ?_, ?_⟩
    · rw [he]; exact getProp_setProp_same _ _ _
    · intro k hk
      rw [he]
      exact getProp_setProp_other _ _ _ _ (fun e => hk e.symm)
    · rw [he]
  · intro h
    simp [App.onRequest, truthy, h]
  · intro h
    simp [App.onRequest, truthy, h, Option.filter]

/-- C17: when the request of a create handler fails, for the shifts, schedules,
institutions and exchanges pages and for payslip generation alike, the page state after the
handler is the state before it (dialog flag, form fields and displayed list included), the
handler has issued exactly one call, its post, followed only by the error notice, and no
reload of the list follows.  On success, by contrast, the list is reloaded. -/
theorem failed_submit_keeps_state (parseFloat : String → JSNumber) (user : User)
    (e : ApiError) (sp : ShiftsPage.State) (cp : SchedulesPage.State)
    (ip : InstitutionsPage.State) (ep : ExchangesPage.State) (pp : PayslipsPage.State) :
    (ShiftsPage.handleSubmit user sp (.error e) = sp
      ∧ ShiftsPage.handleSubmitEffects parseFloat sp (.error e)
          = [.request (ShiftsPage.handleSubmitRequest parseFloat sp), .toast false]
      ∧ requestsOf (ShiftsPage.handleSubmitEffects parseFloat sp (.error e))
          = [ShiftsPage.handleSubmitRequest parseFloat sp]
      ∧ requestsOf (ShiftsPage.handleSubmitEffects parseFloat sp (.ok ()))
          = [ShiftsPage.handleSubmitRequest parseFloat sp, listRequest "shifts"])
    ∧ (SchedulesPage.handleSubmit user cp (.error e) = cp
      ∧ SchedulesPage.handleSubmitEffects cp (.error e)
          = [.request (SchedulesPage.handleSubmitRequest (formBody cp.formData)), .toast false]
      ∧ requestsOf (SchedulesPage.handleSubmitEffects cp (.error e))
          = [SchedulesPage.handleSubmitRequest (formBody cp.formData)]
      ∧ requestsOf (SchedulesPage.handleSubmitEffects cp (.ok ()))
          = [SchedulesPage.handleSubmitRequest (formBody cp.formData), listRequest "schedules"])
    ∧ (InstitutionsPage.handleSubmit ip (.error e) = ip
      ∧ InstitutionsPage.handleSubmitEffects ip (.error e)
          = [.request (InstitutionsPage.handleSubmitRequest (formBody ip.formData)),
             .toast false]
      ∧ requestsOf (InstitutionsPage.handleSubmitEffects ip (.error e))
          = [InstitutionsPage.handleSubmitRequest (formBody ip.formData)]
      ∧ requestsOf (InstitutionsPage.handleSubmitEffects ip (.ok ()))
          = [InstitutionsPage.handleSubmitRequest (formBody ip.formData),
             listRequest "institutions"])
    ∧ (ExchangesPage.handleSubmit ep (.error e) = ep
      ∧ ExchangesPage.handleSubmitEffects ep (.error e)
          = [.request (ExchangesPage.handleSubmitRequest ep), .toast false]
      ∧ requestsOf (ExchangesPage.handleSubmitEffects ep (.error e))
          = [ExchangesPage.handleSubmitRequest ep]
      ∧ requestsOf (ExchangesPage.handleSubmitEffects ep (.ok ()))
          = [ExchangesPage.handleSubmitRequest ep, listRequest "exchanges"])
    ∧ (PayslipsPage.handleGenerate pp (.error e) = pp
      ∧ PayslipsPage.handleGenerateEffects pp (.error e)
          = [.request (PayslipsPage.handleGenerateRequest pp), .toast false]
      ∧ requestsOf (PayslipsPage.handleGenerateEffects pp (.error e))
          = [PayslipsPage.handleGenerateRequest pp]
      ∧ requestsOf (PayslipsPage.handleGenerateEffects pp (.ok ()))
          = [PayslipsPage.handleGenerateRequest pp, listRequest "payslips"]) := by
  refine ⟨⟨rfl, rfl, rfl, rfl⟩, ⟨rfl, rfl, rfl, rfl⟩, ⟨rfl, rfl, rfl, rfl⟩,
    ⟨rfl, rfl, rfl, rfl⟩, ⟨rfl, rfl, rfl, rfl⟩⟩

/-- The loop issues a prefix of the calls for the unread messages. -/
theorem MessagesPage.markAll_prefix (succeeds : Nat → Bool) (unread : List Message) (i : Nat) :
    MessagesPage.markAll succeeds i unread
      <+: unread.map (fun m => MessagesPage.markReadRequest m.id) := by
  induction unread generalizing i with
  | nil => simp [MessagesPage.markAll]
  | cons msg rest ih =>
    simp only [MessagesPage.markAll, List.map_cons]
    by_cases h : succeeds i = true
    · simp only [h, if_true]
      exact (List.prefix_cons_inj _).mpr (ih (i + 1))
    · simp only [h]
      exact (List.prefix_cons_inj _).mpr (List.nil_prefix)

/-- While no call fails the loop issues every call. -/
theorem MessagesPage.markAll_all (succeeds : Nat → Bool) (unread : List Message) (i : Nat)
    (h : ∀ j, j < unread.length → succeeds (i + j) = true) :
    MessagesPage.markAll succeeds i unread
      = unread.map (fun m => MessagesPage.markReadRequest m.id) := by
  induction unread generalizing i with
  | nil => simp [MessagesPage.markAll]
  | cons msg rest ih =>
    have h0 : succeeds i = true := by simpa using h 0 (by simp)
    simp only [MessagesPage.markAll, List.map_cons, h0, if_true]
    congr 1
    apply ih
    intro j hj
    have := h (j + 1) (by simp; omega)
    rwa [show i + (j + 1) = i + 1 + j by omega] at this

/-- The loop stops after the first call that fails. -/
theorem MessagesPage.markAll_stop (succeeds : Nat → Bool) (unread : List Message) (i k : Nat)
    (h : ∀ j, j < k → succeeds (i + j) = true) (hk : succeeds (i + k) = false) :
    MessagesPage.markAll succeeds i unread
      = (unread.map (fun m => MessagesPage.markReadRequest m.id)).take (k + 1) := by
  induction unread generalizing i k with
  | nil => simp [MessagesPage.markAll]
  | cons msg rest ih =>
    simp only [MessagesPage.markAll, List.map_cons, List.take_succ_cons]
    congr 1
    cases k with
    | zero =>
      have : succeeds i = false := by simpa using hk
      simp [this]
    | succ n =>
      have h0 : succeeds i = true := by simpa using h 0 (by omega)
      simp only [h0, if_true]
      apply ih
      · intro j hj
        have := h (j + 1) (by omega)
        rwa [show i + (j + 1) = i + 1 + j by omega] at this
      · rwa [show i + (n + 1) = i + 1 + n by omega] at hk

/-- C18, as stated, fails: the response holds two unread messages for the nurse, the first
mark-read call fails, and no call is issued for the second message. -/
theorem mark_read_stops_at_failure :
    MessagesPage.unreadMessages Sample.nurse
        [Sample.unread "m1" "2024-05-04T10:00", Sample.unread "m2" "2024-05-04T10:05"]
      = [Sample.unread "m1" "2024-05-04T10:00", Sample.unread "m2" "2024-05-04T10:05"]
    ∧ MessagesPage.markReadCalls Sample.nurse
        [Sample.unread "m1" "2024-05-04T10:00", Sample.unread "m2" "2024-05-04T10:05"]
        (fun _ => false)
      = [MessagesPage.markReadRequest "m1"]
    ∧ MessagesPage.markReadRequest "m2" ∉ MessagesPage.markReadCalls Sample.nurse
        [Sample.unread "m1" "2024-05-04T10:00", Sample.unread "m2" "2024-05-04T10:05"]
        (fun _ => false) := by
  refine ⟨by decide, by decide, by decide⟩

/-- C18, amended: for every list of messages returned for a conversation, the mark-read
calls `fetchMessages` issues are, once each and in list order, for the messages with
recipient_id equal to the current user's id and read false, up to and including the first
one whose call fails: all of them when none fails.  So every call is for an unread message
addressed to the current user, never for one addressed to someone else or already read; and
the only calls of the client on messages are mark-read and send. -/
theorem mark_read_calls (user : User) (data : List Message) (succeeds : Nat → Bool) :
    MessagesPage.unreadMessages user data
        = data.filter (fun m => decide (m.recipient_id = user.id ∧ m.read = false))
    ∧ MessagesPage.markReadCalls user data succeeds
        <+: (MessagesPage.unreadMessages user data).map
              (fun m => MessagesPage.markReadRequest m.id)
    ∧ ((∀ j, j < (MessagesPage.unreadMessages user data).length → succeeds j = true) →
        MessagesPage.markReadCalls user data succeeds
          = (MessagesPage.unreadMessages user data).map
              (fun m => MessagesPage.markReadRequest m.id))
    ∧ (∀ k, (∀ j, j < k → succeeds j = true) → succeeds k = false →
        MessagesPage.markReadCalls user data succeeds
          = ((MessagesPage.unreadMessages user data).map
              (fun m => MessagesPage.markReadRequest m.id)).take (k + 1))
    ∧ (∀ r ∈ MessagesPage.markReadCalls user data succeeds,
        ∃ m ∈ data, r = MessagesPage.markReadRequest m.id
          ∧ m.recipient_id = user.id ∧ m.read = false)
    ∧ (∀ c : OtherCall, c.request.path.head? = some "messages" →
        (∃ msgId, c.request = MessagesPage.markReadRequest msgId)
        ∨ (∃ recipientId content,
            c.request = MessagesPage.sendMessageRequest recipientId content)) := by
  have hu : MessagesPage.unreadMessages user data
      = data.filter (fun m => decide (m.recipient_id = user.id ∧ m.read = false)) := by
    simp only [MessagesPage.unreadMessages]
    congr 1
    funext m
    by_cases h1 : m.recipient_id = user.id <;> cases h2 : m.read <;> simp [h1]
  have hp := MessagesPage.markAll_prefix succeeds (MessagesPage.unreadMessages user data) 0
  refine ⟨hu, hp, ?_, ?_, ?_, ?_⟩
  · intro h
    exact MessagesPage.markAll_all succeeds _ 0 (fun j hj => by simpa using h j hj)
  · intro k h hk
    exact MessagesPage.markAll_stop succeeds _ 0 k (fun j hj => by simpa using h j hj)
      (by simpa using hk)
  · intro r hr
    have hmem := hp.subset hr
    simp only [List.mem_map] at hmem
    obtain ⟨m, hm, rfl⟩ := hmem
    rw [hu] at hm
    simp only [List.mem_filter, decide_eq_true_eq] at hm
    exact ⟨m, hm.1, rfl, hm.2.1, hm.2.2⟩
  · intro c hc
    cases c <;>
      simp [OtherCall.request, SchedulesPage.handleSubmitRequest,
        InstitutionsPage.handleSubmitRequest, ProfilePage.handleSubmitRequest,
        MessagesPage.markReadRequest, MessagesPage.sendMessageRequest,
        NotificationsPage.markAsRead, NotificationsPage.markAllAsRead,
        UsersPage.updateUserStatus] at hc ⊢

/-- C19: the page renders the messages of a response in the order of the response, and the
response of the message list request is the conversation of the two users ordered by
timestamp ascending; so the sequence rendered for a conversation is sorted by
non-decreasing timestamp. -/
theorem conversation_sorted (stored : List Message) (user : User) (otherUserId : String)
    (s : MessagesPage.State) :
    List.Sorted (fun a b : Message => a.timestamp ≤ b.timestamp)
        (Server.listMessages stored user.id otherUserId)
    ∧ List.Perm (Server.listMessages stored user.id otherUserId)
        (stored.filter (fun m =>
          (m.sender_id == user.id && m.recipient_id == otherUserId)
            || (m.sender_id == otherUserId && m.recipient_id == user.id)))
    ∧ (∀ data, (MessagesPage.fetchMessages s (.ok data)).messages = data)
    ∧ (s.loading = false → s.selectedUser.isSome = true →
        MessagesPage.shown
            (MessagesPage.fetchMessages s (.ok (Server.listMessages stored user.id otherUserId)))
          = Server.listMessages stored user.id otherUserId)
    ∧ List.Sorted (fun a b : Message => a.timestamp ≤ b.timestamp)
        (MessagesPage.shown
          (MessagesPage.fetchMessages s
            (.ok (Server.listMessages stored user.id otherUserId)))) := by
  haveI : IsTotal Message (fun a b : Message => a.timestamp ≤ b.timestamp) :=
    ⟨fun a b => le_total a.timestamp b.timestamp⟩
  haveI : IsTrans Message (fun a b : Message => a.timestamp ≤ b.timestamp) :=
    ⟨fun _ _ _ h1 h2 => le_trans h1 h2⟩
  have hs : List.Sorted (fun a b : Message => a.timestamp ≤ b.timestamp)
      (Server.listMessages stored user.id otherUserId) := List.sorted_insertionSort _ _
  refine ⟨hs, List.perm_insertionSort _ _, fun _ => rfl, ?_, ?_⟩
  · intro hl hsel
    cases hu : s.selectedUser with
    | none => simp [hu] at hsel
    | some contact => simp [MessagesPage.shown, MessagesPage.fetchMessages, hl, hu]
  · cases hl : s.loading
    · cases hu : s.selectedUser with
      | none => simp [MessagesPage.shown, MessagesPage.fetchMessages, hl, hu]
      | some contact =>
        simpa [MessagesPage.shown, MessagesPage.fetchMessages, hl, hu] using hs
    · simp [MessagesPage.shown, MessagesPage.fetchMessages, hl]

/-- C21: once the page has loaded, the payslip generation control of `PayslipsPage` and
the add-institution control of `InstitutionsPage` are each rendered exactly when the
viewer's role is admin (while loading only the spinner is rendered); and the users offered
for payslip generation are exactly the approved users whose role is not admin, in the order
of the response. -/
theorem admin_only_controls (viewer : User) (ps : PayslipsPage.State)
    (ip : InstitutionsPage.State) (data : List User) :
    (∀ control cards emptyNotice,
        PayslipsPage.render viewer ps = .page control cards emptyNotice →
          (control.isSome = true ↔ viewer.role = "admin")
          ∧ (viewer.role = "admin" →
              control = some ("" :: ps.users.map (fun u => u.id))))
    ∧ (ps.loading = false → ∃ control cards emptyNotice,
        PayslipsPage.render viewer ps = .page control cards emptyNotice)
    ∧ (∀ addControl cards emptyNotice,
        InstitutionsPage.render viewer ip = .page addControl cards emptyNotice →
          (addControl = true ↔ viewer.role = "admin"))
    ∧ (ip.loading = false → ∃ addControl cards emptyNotice,
        InstitutionsPage.render viewer ip = .page addControl cards emptyNotice)
    ∧ (PayslipsPage.fetchUsers ps (.ok data)).users
        = data.filter (fun u => decide (u.status = "approved" ∧ u.role ≠ "admin"))
    ∧ List.Sublist (PayslipsPage.fetchUsers ps (.ok data)).users data
    ∧ (∀ u, u ∈ (PayslipsPage.fetchUsers ps (.ok data)).users
        ↔ u ∈ data ∧ u.status = "approved" ∧ u.role ≠ "admin") := by
  have hf : (PayslipsPage.fetchUsers ps (.ok data)).users
      = data.filter (fun u => decide (u.status = "approved" ∧ u.role ≠ "admin")) := by
    simp only [PayslipsPage.fetchUsers]
    congr 1
    funext u
    by_cases h1 : u.status = "approved" <;> by_cases h2 : u.role = "admin" <;> simp [h1, h2]
  refine ⟨?_, ?_, ?_, ?_, hf, ?_, ?_⟩
  · intro control cards emptyNotice hr
    by_cases hl : ps.loading = true
    · simp [PayslipsPage.render, hl] at hr
    · by_cases ha : viewer.role = "admin"
      · simp [PayslipsPage.render, hl, ha] at hr
        obtain ⟨rfl, -, -⟩ := hr
        simp [ha]
      · simp [PayslipsPage.render, hl, ha] at hr
        obtain ⟨rfl, -, -⟩ := hr
        simp [ha]
  · intro hl
    exact ⟨if viewer.role == "admin" then some ("" :: ps.users.map (fun u => u.id)) else none,
      ps.payslips, ps.payslips.length == 0, by simp [PayslipsPage.render, hl]⟩
  · intro addControl cards emptyNotice hr
    by_cases hl : ip.loading = true
    · simp [InstitutionsPage.render, hl] at hr
    · simp [InstitutionsPage.render, hl] at hr
      obtain ⟨rfl, -, -⟩ := hr
      simp
  · intro hl
    exact ⟨viewer.role == "admin", ip.institutions, ip.institutions.length == 0,
      by simp [InstitutionsPage.render, hl]⟩
  · rw [hf]; exact List.filter_sublist _
  · intro u; rw [hf]; simp [List.mem_filter]

/-- C23: for every role, `filteredMenuItems` is the sublist, in declaration order, of the
menu items whose roles list contains the role; the users item is included exactly for
admin, the seven other items are included for each of admin, infirmier and aide_soignant,
and for any other role string the menu is empty. -/
theorem menu_filtered_by_role (user : User) :
    Layout.filteredMenuItems user
        = Layout.menuItems.filter (fun item => decide (user.role ∈ item.roles))
    ∧ List.Sublist (Layout.filteredMenuItems user) Layout.menuItems
    ∧ ("/users" ∈ (Layout.filteredMenuItems user).map (fun item => item.path)
        ↔ user.role = "admin")
    ∧ (user.role = "admin" →
        (Layout.filteredMenuItems user).map (fun item => item.path)
          = ["/dashboard", "/users", "/institutions", "/schedules", "/shifts", "/payslips",
             "/messages", "/exchanges"])
    ∧ (user.role = "infirmier" ∨ user.role = "aide_soignant" →
        (Layout.filteredMenuItems user).map (fun item => item.path)
          = ["/dashboard", "/institutions", "/schedules", "/shifts", "/payslips",
             "/messages", "/exchanges"])
    ∧ (user.role ≠ "admin" → user.role ≠ "infirmier" → user.role ≠ "aide_soignant" →
        Layout.filteredMenuItems user = []) := by
  refine ⟨?_, List.filter_sublist _, ?_, ?_, ?_, ?_⟩
  · simp only [Layout.filteredMenuItems]
    congr 1
    funext item
    simp
  · by_cases h1 : user.role = "admin"
    · simp [Layout.filteredMenuItems, Layout.menuItems, List.filter, h1]
    · by_cases h2 : user.role = "infirmier"
      · simp [Layout.filteredMenuItems, Layout.menuItems, List.filter, h2]
      · by_cases h3 : user.role = "aide_soignant"
        · simp [Layout.filteredMenuItems, Layout.menuItems, List.filter, h3]
        · simp [Layout.filteredMenuItems, Layout.menuItems, List.filter, h1, h2, h3]
  · intro h1
    simp [Layout.filteredMenuItems, Layout.menuItems, List.filter, h1]
  · rintro (h | h) <;> simp [Layout.filteredMenuItems, Layout.menuItems, List.filter, h]
  · intro h1 h2 h3
    simp [Layout.filteredMenuItems, Layout.menuItems, List.filter, h1, h2, h3]

/-- C28: for every list of notifications, the count `fetchNotificationCount` stores and
the `unreadCount` of the notifications page are the number of notifications whose read flag
is not true (false or absent); the badge is hidden at 0, shows the count itself from 1 to 9
and "9+" above 9; and, once the page has loaded, the mark-all-read control is rendered
exactly when the count is greater than 0. -/
theorem unread_count_and_badge (data : List Notification) (s : Layout.State)
    (t : NotificationsPage.State) :
    (Layout.fetchNotificationCount s (.ok data)).notificationCount
        = data.countP (fun n => decide (n.read ≠ some true))
    ∧ NotificationsPage.unreadCount (NotificationsPage.fetchNotifications t (.ok data))
        = data.countP (fun n => decide (n.read ≠ some true))
    ∧ (s.notificationCount = 0 → Layout.badge s = none)
    ∧ (1 ≤ s.notificationCount → s.notificationCount ≤ 9 →
        Layout.badge s = some (toString s.notificationCount))
    ∧ (9 < s.notificationCount → Layout.badge s = some "9+")
    ∧ (∀ unread markAllControl cards emptyNotice,
        NotificationsPage.render t = .page unread markAllControl cards emptyNotice →
          unread = NotificationsPage.unreadCount t
          ∧ (markAllControl = true ↔ 0 < NotificationsPage.unreadCount t))
    ∧ (t.loading = false → ∃ unread markAllControl cards emptyNotice,
        NotificationsPage.render t = .page unread markAllControl cards emptyNotice) := by
  have hp : (fun n : Notification => n.unread)
      = (fun n => decide (n.read ≠ some true)) := by
    funext n
    by_cases h : n.read = some true <;> simp [Notification.unread, h]
  refine ⟨?_, ?_, ?_, ?_, ?_, ?_, ?_⟩
  · simp only [Layout.fetchNotificationCount, hp, List.countP_eq_length_filter]
  · simp only [NotificationsPage.unreadCount, NotificationsPage.fetchNotifications, hp,
      List.countP_eq_length_filter]
  · intro h
    simp [Layout.badge, h]
  · intro h1 h2
    have h3 : 0 < s.notificationCount := h1
    have h4 : ¬ 9 < s.notificationCount := by omega
    simp [Layout.badge, h3, h4]
  · intro h
    have h3 : 0 < s.notificationCount := by omega
    simp [Layout.badge, h3, h]
  · intro unread markAllControl cards emptyNotice hr
    by_cases hl : t.loading = true
    · simp [NotificationsPage.render, hl] at hr
    · simp [NotificationsPage.render, hl] at hr
      obtain ⟨rfl, rfl, -, -⟩ := hr
      simp
  · intro hl
    exact ⟨NotificationsPage.unreadCount t, decide (NotificationsPage.unreadCount t > 0),
      t.notifications.map
        (fun n => (n, if n.unread then [NotificationsPage.markAsRead n.id] else [])),
      t.notifications.length == 0, by simp [NotificationsPage.render, hl]⟩

/-- C24: once loaded, what a location resolves to depends only on whether a user is
present.  With no user each of the ten page routes (dashboard, profile, users, institutions,
schedules, shifts, payslips, messages, notifications, exchanges) and the index route resolve
to a redirect to the login page, the login and register routes render their pages, and no
pathname at all renders a page inside the layout; with a user, whatever the role, the login,
register and index routes resolve to a redirect to the dashboard and each of the ten page
routes renders its own page inside the layout.  The router ignores letter case and trailing
slashes, and a pathname no route matches renders nothing. -/
theorem route_guard (u v : User) (path : String) :
    ["/dashboard", "/profile", "/users", "/institutions", "/schedules", "/shifts",
      "/payslips", "/messages", "/notifications", "/exchanges"].map
        (App.route { user := none, loading := false })
      = List.replicate 10 (.redirect "/login")
    ∧ App.route { user := none, loading := false } "/" = .redirect "/login"
    ∧ App.route { user := none, loading := false } "/login" = .loginPage
    ∧ App.route { user := none, loading := false } "/register" = .registerPage
    ∧ (∀ page, App.route { user := none, loading := false } path ≠ .layout page)
    ∧ App.route { user := some u, loading := false } "/login" = .redirect "/dashboard"
    ∧ App.route { user := some u, loading := false } "/register" = .redirect "/dashboard"
    ∧ App.route { user := some u, loading := false } "/" = .redirect "/dashboard"
    ∧ ["/dashboard", "/profile", "/users", "/institutions", "/schedules", "/shifts",
        "/payslips", "/messages", "/notifications", "/exchanges"].map
          (App.route { user := some u, loading := false })
        = [.layout "dashboard", .layout "profile", .layout "users", .layout "institutions",
           .layout "schedules", .layout "shifts", .layout "payslips", .layout "messages",
           .layout "notifications", .layout "exchanges"]
    ∧ App.route { user := some u, loading := false } path
        = App.route { user := some v, loading := false } path
    ∧ App.route { user := some u, loading := false } "/SHIFTS/" = .layout "shifts"
    ∧ App.route { user := none, loading := false } "/Login" = .loginPage
    ∧ App.route { user := some u, loading := false } "/unknown" = .blank
    ∧ App.route { user := some u, loading := false } "/dashboard/extra" = .blank := by
  refine ⟨by decide, by decide, by decide, by decide, ?_, rfl, rfl, rfl, rfl, ?_,
    rfl, by decide, rfl, rfl⟩
  · intro page
    simp only [App.route]
    split
    · simp
    · split
      · simp
      · split
        · simp
        · split
          · simp
          · split <;> simp
  · simp only [App.route]

/-- Writing a key an object does not own appends it. -/
theorem setProp_of_absent {α : Type} (o : List (String × α)) (k : String) (v : α)
    (h : getProp o k = none) : setProp o k v = o ++ [(k, v)] := by
  induction o with
  | nil => rfl
  | cons kv rest ih =>
    obtain ⟨k1, v1⟩ := kv
    by_cases hk : k1 = k
    · simp [getProp, hk] at h
    · simp only [getProp, hk, if_false] at h
      simp [setProp, hk, ih h]

/-- Removing a key a storage does not hold changes nothing. -/
theorem removeItem_of_absent (storage : List (String × String)) (key : String)
    (h : getProp storage key = none) : removeItem storage key = storage := by
  induction storage with
  | nil => rfl
  | cons kv rest ih =>
    obtain ⟨k1, v1⟩ := kv
    by_cases hk : k1 = key
    · simp [getProp, hk] at h
    · simp only [getProp, hk, if_false] at h
      have hrest : removeItem ((k1, v1) :: rest) key = (k1, v1) :: removeItem rest key := by
        simp [removeItem, hk]
      rw [hrest, ih h]

/-- Removing a key right after it was appended gives the storage back. -/
theorem removeItem_append_same (storage : List (String × String)) (key value : String)
    (h : getProp storage key = none) :
    removeItem (storage ++ [(key, value)]) key = storage := by
  have h1 := removeItem_of_absent storage key h
  simp only [removeItem] at h1 ⊢
  simp [List.filter_append, h1, List.filter]

/-- C30: after `login(token, userData)` local storage holds the token under `token` and the
JSON encoding of the user data under `user`, and the current user is the user data; after
`logout()` both keys are absent and the current user is null, every other key being as
before.  So logout after login leaves both keys absent and no current user whatever the token
and the user data were, and gives back exactly the storage and state of a logged-out
session. -/
theorem login_logout_session (stringify : User → String) (b : Browser) (s : App.State)
    (token : String) (userData : User) :
    getProp (App.login stringify b s token userData).1.localStorage "token" = some token
    ∧ getProp (App.login stringify b s token userData).1.localStorage "user"
        = some (stringify userData)
    ∧ (App.login stringify b s token userData).2.user = some userData
    ∧ getProp (App.logout b s).1.localStorage "token" = none
    ∧ getProp (App.logout b s).1.localStorage "user" = none
    ∧ (App.logout b s).2.user = none
    ∧ (∀ k, k ≠ "token" → k ≠ "user" →
        getProp (App.login stringify b s token userData).1.localStorage k
            = getProp b.localStorage k
        ∧ getProp (App.logout b s).1.localStorage k = getProp b.localStorage k)
    ∧ (App.logout (App.login stringify b s token userData).1
          (App.login stringify b s token userData).2).2.user = none
    ∧ getProp (App.logout (App.login stringify b s token userData).1
          (App.login stringify b s token userData).2).1.localStorage "token" = none
    ∧ getProp (App.logout (App.login stringify b s token userData).1
          (App.login stringify b s token userData).2).1.localStorage "user" = none
    ∧ (getProp b.localStorage "token" = none → getProp b.localStorage "user" = none →
        s.user = none →
        App.logout (App.login stringify b s token userData).1
          (App.login stringify b s token userData).2 = (b, s)) := by
  have hlogout : ∀ (x : Browser) (y : App.State),
      getProp (App.logout x y).1.localStorage "token" = none
      ∧ getProp (App.logout x y).1.localStorage "user" = none := by
    intro x y
    simp only [App.logout]
    exact ⟨by rw [getProp_removeItem_other _ _ _ (by decide)]
              exact getProp_removeItem_same _ _,
           getProp_removeItem_same _ _⟩
  refine ⟨?_, ?_, rfl, (hlogout b s).1, (hlogout b s).2, rfl, ?_, rfl, (hlogout _ _).1,
    (hlogout _ _).2, ?_⟩
  · simp only [App.login]
    rw [getProp_setProp_other _ _ _ _ (by decide)]
    exact getProp_setProp_same _ _ _
  · simp only [App.login]
    exact getProp_setProp_same _ _ _
  · intro k h1 h2
    constructor
    · simp only [App.login]
      rw [getProp_setProp_other _ _ _ _ (fun e => h2 e.symm),
        getProp_setProp_other _ _ _ _ (fun e => h1 e.symm)]
    · simp only [App.logout]
      rw [getProp_removeItem_other _ _ _ (fun e => h2 e.symm),
        getProp_removeItem_other _ _ _ (fun e => h1 e.symm)]
  · intro h1 h2 h3
    have e1 : setProp b.localStorage "token" token = b.localStorage ++ [("token", token)] :=
      setProp_of_absent _ _ _ h1
    have h2a : getProp (b.localStorage ++ [("token", token)]) "user" = none := by
      rw [← e1, getProp_setProp_other _ _ _ _ (by decide)]
      exact h2
    have e2 : setProp (b.localStorage ++ [("token", token)]) "user" (stringify userData)
        = b.localStorage ++ [("token", token)] ++ [("user", stringify userData)] :=
      setProp_of_absent _ _ _ h2a
    have e3 : removeItem (b.localStorage ++ [("token", token)] ++ [("user", stringify userData)])
        "token" = b.localStorage ++ [("user", stringify userData)] := by
      have := removeItem_of_absent b.localStorage "token" h1
      simp only [removeItem] at this ⊢
      simp [List.filter_append, this, List.filter]
    have e4 : removeItem (b.localStorage ++ [("user", stringify userData)]) "user"
        = b.localStorage := removeItem_append_same _ _ _ h2
    simp only [App.logout, App.login, e1, e2, e3, e4]
    cases s
    simp only at h3
    subst h3
    rfl

/-- Witness for C30: a logged-out browser that holds an unrelated key. -/
theorem login_logout_session_witness :
    App.logout
        (App.login Sample.stringify { localStorage := [("theme", "light")], location := "/login" }
          { user := none, loading := false } "tok-1" Sample.nurse).1
        (App.login Sample.stringify { localStorage := [("theme", "light")], location := "/login" }
          { user := none, loading := false } "tok-1" Sample.nurse).2
      = ({ localStorage := [("theme", "light")], location := "/login" },
         { user := none, loading := false }) :=
  (login_logout_session Sample.stringify
    { localStorage := [("theme", "light")], location := "/login" }
    { user := none, loading := false } "tok-1" Sample.nurse).2.2.2.2.2.2.2.2.2.2 rfl rfl rfl

/-- C25: for every list of users, search term and status filter, the `filteredUsers` the
effect stores is exactly the sublist, in the original order, of the users such that the term
is empty or the lower-cased term is a substring of the lower-cased first name, last name or
email, and the filter is 'all' or equals the status.  An empty term with filter 'all' gives
the whole list, and two terms with the same lower-casing (both empty or both not) give the
same result. -/
theorem users_search_filter (toLowerCase : String → String) (s t : UsersPage.State) :
    (UsersPage.filterEffect toLowerCase s).filteredUsers
        = s.users.filter (fun u => decide
            ((s.searchTerm = ""
                ∨ (toLowerCase s.searchTerm).toList <:+: (toLowerCase u.first_name).toList
                ∨ (toLowerCase s.searchTerm).toList <:+: (toLowerCase u.last_name).toList
                ∨ (toLowerCase s.searchTerm).toList <:+: (toLowerCase u.email).toList)
              ∧ (s.filterStatus = "all" ∨ u.status = s.filterStatus)))
    ∧ List.Sublist (UsersPage.filterEffect toLowerCase s).filteredUsers s.users
    ∧ (s.searchTerm = "" → s.filterStatus = "all" →
        (UsersPage.filterEffect toLowerCase s).filteredUsers = s.users)
    ∧ (t.users = s.users → t.filterStatus = s.filterStatus →
        toLowerCase t.searchTerm = toLowerCase s.searchTerm →
        (t.searchTerm = "" ↔ s.searchTerm = "") →
        (UsersPage.filterEffect toLowerCase t).filteredUsers
          = (UsersPage.filterEffect toLowerCase s).filteredUsers) := by
  have key : ∀ x : UsersPage.State, (UsersPage.filterEffect toLowerCase x).filteredUsers
      = x.users.filter (fun u => decide
          ((x.searchTerm = ""
              ∨ (toLowerCase x.searchTerm).toList <:+: (toLowerCase u.first_name).toList
              ∨ (toLowerCase x.searchTerm).toList <:+: (toLowerCase u.last_name).toList
              ∨ (toLowerCase x.searchTerm).toList <:+: (toLowerCase u.email).toList)
            ∧ (x.filterStatus = "all" ∨ u.status = x.filterStatus))) := by
    intro x
    by_cases h1 : x.searchTerm = "" <;> by_cases h2 : x.filterStatus = "all"
    · simp [UsersPage.filterEffect, h1, h2]
    · simp [UsersPage.filterEffect, h1, h2]
      rfl
    · simp only [UsersPage.filterEffect, h1, h2, bne_iff_ne, ne_eq, not_false_eq_true,
        if_true, not_true_eq_false, if_false, false_or, true_or, and_true]
      congr 1
      funext u
      simp [includes, Bool.or_assoc]
    · simp only [UsersPage.filterEffect, h1, h2, bne_iff_ne, ne_eq, not_false_eq_true,
        if_true, false_or, List.filter_filter]
      congr 1
      funext u
      by_cases h3 : u.status = x.filterStatus <;>
        simp [includes, Bool.or_assoc, h3]
  refine ⟨key s, ?_, ?_, ?_⟩
  · rw [key s]; exact List.filter_sublist _
  · intro h1 h2
    rw [key s]
    simp [h1, h2]
  · intro hu hf hl he
    rw [key s, key t, hu, hf, hl]
    congr 1
    funext u
    simp [he]

/-- The lookup list of the exchanges page holds only shifts of the viewer that are not
paid. -/
theorem ExchangesPage.shifts_invariant (user : User) (s : ExchangesPage.State)
    (hs : ExchangesPage.Reachable user s) :
    ∀ sh ∈ s.shifts, sh.user_id = user.id ∧ sh.status ≠ "paid" := by
  induction hs with
  | mount => simp [ExchangesPage.init]
  | next ev _ hstep ih =>
    cases ev with
    | exchangesFetched res =>
      cases res <;> simp only [ExchangesPage.step, Option.some.injEq] at hstep <;>
        subst hstep <;> exact ih
    | shiftsFetched res =>
      cases res with
      | error e =>
        simp only [ExchangesPage.step, Option.some.injEq] at hstep
        subst hstep
        exact ih
      | ok data =>
        simp only [ExchangesPage.step, Option.some.injEq] at hstep
        subst hstep
        intro sh hsh
        simp only [ExchangesPage.fetchShifts, List.mem_filter, Bool.and_eq_true, bne_iff_ne,
          ne_eq, beq_iff_eq] at hsh
        exact hsh.2
    | usersFetched res =>
      cases res <;> simp only [ExchangesPage.step, Option.some.injEq] at hstep <;>
        subst hstep <;> exact ih
    | dialogToggled b =>
      simp only [ExchangesPage.step, Option.some.injEq] at hstep
      subst hstep
      exact ih
    | shiftChosen v =>
      simp only [ExchangesPage.step] at hstep
      split at hstep
      · simp only [Option.some.injEq] at hstep
        subst hstep
        exact ih
      · exact absurd hstep (by simp)
    | userChosen v =>
      simp only [ExchangesPage.step] at hstep
      split at hstep
      · simp only [Option.some.injEq] at hstep
        subst hstep
        exact ih
      · exact absurd hstep (by simp)
    | submitted res =>
      simp only [ExchangesPage.step] at hstep
      split at hstep
      · simp only [Option.some.injEq] at hstep
        subst hstep
        cases res <;> exact ih
      · exact absurd hstep (by simp)

/-- C26: in every state of the exchanges page, a shift that `getShiftDetails` finds has the
id asked for, is owned by the viewer and is not paid.  So after a list response in which
every shift with the id of the exchange is owned by someone else or is paid, the lookup
returns the empty object and the card shows no date, hours or amount; in particular for a
received exchange whose shift still belongs to the proposer. -/
theorem foreign_shift_details_absent (user : User) (s : ExchangesPage.State)
    (hs : ExchangesPage.Reachable user s) (exchange : Exchange) (data : List Shift) :
    (∀ sh, ExchangesPage.getShiftDetails s exchange.shift_id = some sh →
        sh.id = exchange.shift_id ∧ sh.user_id = user.id ∧ sh.status ≠ "paid")
    ∧ ((∀ sh ∈ s.shifts, sh.id ≠ exchange.shift_id) →
        ExchangesPage.getShiftDetails s exchange.shift_id = none
        ∧ ExchangesPage.cardDetails s exchange = none)
    ∧ ((∀ sh ∈ data, sh.id = exchange.shift_id → sh.user_id ≠ user.id ∨ sh.status = "paid") →
        ExchangesPage.getShiftDetails (ExchangesPage.fetchShifts user s (.ok data))
            exchange.shift_id = none
        ∧ ExchangesPage.cardDetails (ExchangesPage.fetchShifts user s (.ok data)) exchange
            = none)
    ∧ (exchange.to_user_id = user.id → exchange.from_user_id ≠ user.id →
        (∀ sh ∈ data, sh.id = exchange.shift_id → sh.user_id = exchange.from_user_id) →
        ExchangesPage.cardDetails (ExchangesPage.fetchShifts user s (.ok data)) exchange
          = none) := by
  have hnone : ∀ x : ExchangesPage.State, (∀ sh ∈ x.shifts, sh.id ≠ exchange.shift_id) →
      ExchangesPage.getShiftDetails x exchange.shift_id = none
      ∧ ExchangesPage.cardDetails x exchange = none := by
    intro x hx
    have h0 : ExchangesPage.getShiftDetails x exchange.shift_id = none := by
      simp only [ExchangesPage.getShiftDetails, List.find?_eq_none]
      intro sh hsh
      simpa using hx sh hsh
    exact ⟨h0, by simp [ExchangesPage.cardDetails, h0]⟩
  have hdata : (∀ sh ∈ data, sh.id = exchange.shift_id →
      sh.user_id ≠ user.id ∨ sh.status = "paid") →
      ∀ sh ∈ (ExchangesPage.fetchShifts user s (.ok data)).shifts,
        sh.id ≠ exchange.shift_id := by
    intro h sh hsh hid
    simp only [ExchangesPage.fetchShifts, List.mem_filter, Bool.and_eq_true, bne_iff_ne,
      ne_eq, beq_iff_eq] at hsh
    rcases h sh hsh.1 hid with h1 | h1
    · exact h1 hsh.2.1
    · exact hsh.2.2 h1
  refine ⟨?_, hnone s, fun h => hnone _ (hdata h), ?_⟩
  · intro sh hf
    have hmem := List.mem_of_find?_eq_some hf
    have hid := List.find?_some hf
    simp only [beq_iff_eq] at hid
    exact ⟨hid, ExchangesPage.shifts_invariant user s hs sh hmem⟩
  · intro _ hfrom hown
    refine (hnone _ (hdata ?_)).2
    intro sh hsh hid
    exact Or.inl (by rw [hown sh hsh hid]; exact hfrom)

/-- Witness for C26: the aide looks at the nurse's proposal; shift "s1" is the nurse's. -/
theorem foreign_shift_details_absent_witness :
    ExchangesPage.Reachable Sample.aide ExchangesPage.init
    ∧ ExchangesPage.cardDetails
        (ExchangesPage.fetchShifts Sample.aide ExchangesPage.init
          (.ok [Sample.shift "s1" "pending"])) Sample.offer = none :=
  ⟨ExchangesPage.Reachable.mount,
    (foreign_shift_details_absent Sample.aide ExchangesPage.init ExchangesPage.Reachable.mount
      Sample.offer [Sample.shift "s1" "pending"]).2.2.2 rfl (by decide)
      (by
        intro sh hsh _
        simp only [List.mem_singleton] at hsh
        subst hsh
        rfl)⟩

/-- For a viewer who is not an admin the shift form keeps the viewer's id as `user_id`. -/
theorem ShiftsPage.user_id_invariant (user : User) (hrole : user.role ≠ "admin")
    (s : ShiftsPage.State) (hs : ShiftsPage.Reachable user s) :
    getProp s.formData "user_id" = some user.id := by
  induction hs with
  | mount => simp [ShiftsPage.init, ShiftsPage.emptyForm, getProp]
  | @next s0 _ ev _ hstep ih =>
    cases ev with
    | shiftsFetched res =>
      cases res <;> simp only [ShiftsPage.step, Option.some.injEq] at hstep <;>
        subst hstep <;> exact ih
    | institutionsFetched res =>
      cases res <;> simp only [ShiftsPage.step, Option.some.injEq] at hstep <;>
        subst hstep <;> exact ih
    | usersFetched res =>
      simp [ShiftsPage.step, hrole] at hstep
    | dialogToggled b =>
      simp only [ShiftsPage.step, Option.some.injEq] at hstep
      subst hstep
      exact ih
    | changed field value =>
      simp only [ShiftsPage.step] at hstep
      split at hstep
      · rename_i hc
        simp only [Option.some.injEq] at hstep
        subst hstep
        have hf : field ≠ "user_id" := by
          have := hc.1
          simp only [ShiftsPage.controls, beq_iff_eq, hrole, if_false, List.nil_append,
            List.mem_cons, List.mem_singleton, List.not_mem_nil, or_false] at this
          rcases this with h | h | h | h | h <;> rw [h] <;> decide
        simp only [ShiftsPage.onChange]
        rw [getProp_setProp_other _ _ _ _ hf]
        exact ih
      · exact absurd hstep (by simp)
    | submitted res =>
      simp only [ShiftsPage.step] at hstep
      split at hstep
      · simp only [Option.some.injEq] at hstep
        subst hstep
        cases res with
        | error e => exact ih
        | ok x => simp [ShiftsPage.handleSubmit, ShiftsPage.emptyForm, getProp]
      · exact absurd hstep (by simp)

/-- The schedule form keeps the status 'available', and for a viewer who is not an admin
the viewer's id as `user_id`. -/
theorem SchedulesPage.form_invariant (user : User) (s : SchedulesPage.State)
    (hs : SchedulesPage.Reachable user s) :
    getProp s.formData "status" = some "available"
    ∧ (user.role ≠ "admin" → getProp s.formData "user_id" = some user.id) := by
  induction hs with
  | mount => simp [SchedulesPage.init, SchedulesPage.emptyForm, getProp]
  | @next s0 _ ev _ hstep ih =>
    cases ev with
    | schedulesFetched res =>
      cases res <;> simp only [SchedulesPage.step, Option.some.injEq] at hstep <;>
        subst hstep <;> exact ih
    | institutionsFetched res =>
      cases res <;> simp only [SchedulesPage.step, Option.some.injEq] at hstep <;>
        subst hstep <;> exact ih
    | usersFetched res =>
      simp only [SchedulesPage.step] at hstep
      split at hstep
      · cases res <;> simp only [Option.some.injEq] at hstep <;> subst hstep <;> exact ih
      · exact absurd hstep (by simp)
    | dialogToggled b =>
      simp only [SchedulesPage.step, Option.some.injEq] at hstep
      subst hstep
      exact ih
    | changed field value =>
      simp only [SchedulesPage.step] at hstep
      split at hstep
      · rename_i hc
        simp only [Option.some.injEq] at hstep
        subst hstep
        have hmem := hc.1
        simp only [SchedulesPage.controls, List.mem_append, List.mem_cons,
          List.mem_singleton, List.not_mem_nil, or_false] at hmem
        have hstatus : field ≠ "status" := by
          rcases hmem with h | h
          · split at h
            · simp only [List.mem_singleton] at h
              rw [h]; decide
            · simp at h
          · rcases h with h | h | h | h <;> rw [h] <;> decide
        refine ⟨?_, ?_⟩
        · simp only [SchedulesPage.onChange]
          rw [getProp_setProp_other _ _ _ _ hstatus]
          exact ih.1
        · intro hrole
          have hf : field ≠ "user_id" := by
            rcases hmem with h | h
            · simp [hrole] at h
            · rcases h with h | h | h | h <;> rw [h] <;> decide
          simp only [SchedulesPage.onChange]
          rw [getProp_setProp_other _ _ _ _ hf]
          exact ih.2 hrole
      · exact absurd hstep (by simp)
    | submitted res =>
      simp only [SchedulesPage.step] at hstep
      split at hstep
      · simp only [Option.some.injEq] at hstep
        subst hstep
        cases res with
        | error e => exact ih
        | ok x => simp [SchedulesPage.handleSubmit, SchedulesPage.emptyForm, getProp]
      · exact absurd hstep (by simp)

/-- A string field of a form reads the same in the JSON body. -/
theorem getProp_formBody (formData : FormData) (k : String) :
    getProp (formBody formData) k = (getProp formData k).map JSValue.str := by
  induction formData with
  | nil => rfl
  | cons kv rest ih =>
    obtain ⟨k1, v1⟩ := kv
    by_cases hk : k1 = k
    · simp [formBody, getProp, hk]
    · simp only [formBody, List.map_cons, getProp, hk, if_false]
      exact ih

/-- C27: for every viewer whose role is not admin and every state the shift form and the
schedule form can reach by edits and submits, the `user_id` in the payload posted by
`ShiftsPage.handleSubmit` and by `SchedulesPage.handleSubmit` is the viewer's own id; and
for every viewer the schedule payload has status 'available'. -/
theorem non_admin_creates_for_self (parseFloat : String → JSNumber) (viewer : User)
    (hrole : viewer.role ≠ "admin")
    (sp : ShiftsPage.State) (hsp : ShiftsPage.Reachable viewer sp)
    (cp : SchedulesPage.State) (hcp : SchedulesPage.Reachable viewer cp)
    (other : User) (op : SchedulesPage.State) (hop : SchedulesPage.Reachable other op) :
    getProp ((ShiftsPage.handleSubmitRequest parseFloat sp).body.getD []) "user_id"
        = some (.str viewer.id)
    ∧ getProp ((SchedulesPage.request cp).body.getD []) "user_id" = some (.str viewer.id)
    ∧ getProp ((SchedulesPage.request cp).body.getD []) "status" = some (.str "available")
    ∧ getProp ((SchedulesPage.request op).body.getD []) "status" = some (.str "available") := by
  refine ⟨?_, ?_, ?_, ?_⟩
  · have h := ShiftsPage.user_id_invariant viewer hrole sp hsp
    simp only [ShiftsPage.handleSubmitRequest, Option.getD_some, ShiftsPage.payload]
    rw [getProp_setProp_other _ _ _ _ (by decide), getProp_setProp_other _ _ _ _ (by decide),
      getProp_setProp_other _ _ _ _ (by decide)]
    have := getProp_formBody sp.formData "user_id"
    simp only [formBody] at this
    rw [this, h]
    rfl
  · have h := (SchedulesPage.form_invariant viewer cp hcp).2 hrole
    simp only [SchedulesPage.request, SchedulesPage.handleSubmitRequest, Option.getD_some]
    rw [getProp_formBody, h]
    rfl
  · have h := (SchedulesPage.form_invariant viewer cp hcp).1
    simp only [SchedulesPage.request, SchedulesPage.handleSubmitRequest, Option.getD_some]
    rw [getProp_formBody, h]
    rfl
  · have h := (SchedulesPage.form_invariant other op hop).1
    simp only [SchedulesPage.request, SchedulesPage.handleSubmitRequest, Option.getD_some]
    rw [getProp_formBody, h]
    rfl

/-- The sample slot form is reached by loading the institutions, opening the dialog and
filling the controls in. -/
theorem Sample.slotDraft_reachable : SchedulesPage.Reachable Sample.nurse Sample.slotDraft := by
  have h0 : SchedulesPage.Reachable Sample.nurse _ := SchedulesPage.Reachable.mount
  have h1 := SchedulesPage.Reachable.next
    (.institutionsFetched (.ok [{ id := "i1", name := "Clinique" }])) h0 rfl
  have h2 := SchedulesPage.Reachable.next (.dialogToggled true) h1 rfl
  have h3 := SchedulesPage.Reachable.next
    (t := { Sample.slotDraft with formData := (setProp (SchedulesPage.emptyForm Sample.nurse)
      "institution_id" "i1") })
    (.changed "institution_id" "i1") h2 (by decide)
  have h4 := SchedulesPage.Reachable.next
    (t := { Sample.slotDraft with formData := (setProp (setProp
      (SchedulesPage.emptyForm Sample.nurse) "institution_id" "i1") "date" "2024-05-03") })
    (.changed "date" "2024-05-03") h3 (by decide)
  have h5 := SchedulesPage.Reachable.next
    (t := { Sample.slotDraft with formData := (setProp (setProp (setProp
      (SchedulesPage.emptyForm Sample.nurse) "institution_id" "i1") "date" "2024-05-03")
      "start_time" "10:00") })
    (.changed "start_time" "10:00") h4 (by decide)
  exact SchedulesPage.Reachable.next (.changed "end_time" "09:00") h5 (by decide)

/-- Witness for C27: the sample nurse with her shift form and her slot form filled in. -/
theorem non_admin_creates_for_self_witness :
    Sample.nurse.role ≠ "admin"
    ∧ ShiftsPage.Reachable Sample.nurse Sample.shiftDraft
    ∧ SchedulesPage.Reachable Sample.nurse Sample.slotDraft
    ∧ getProp ((ShiftsPage.handleSubmitRequest Sample.parseFloat Sample.shiftDraft).body.getD [])
        "user_id" = some (.str "u1")
    ∧ getProp ((SchedulesPage.request Sample.slotDraft).body.getD []) "user_id"
        = some (.str "u1") :=
  have h := non_admin_creates_for_self Sample.parseFloat Sample.nurse (by decide)
    Sample.shiftDraft Sample.shiftDraft_reachable Sample.slotDraft Sample.slotDraft_reachable
    Sample.admin (SchedulesPage.init Sample.admin) SchedulesPage.Reachable.mount
  ⟨by decide, Sample.shiftDraft_reachable, Sample.slotDraft_reachable, h.1, h.2.1⟩

/-- C22: `handleSubmit` posts the schedule form without a check of its own, and the server
validates: for every form state whose end time is not later than its start time, the
posted request is answered with a validation error, the stored schedules are as before, and
the page keeps its state. -/
theorem invalid_schedule_not_created (user : User) (s : SchedulesPage.State)
    (stored : List Schedule) (newId : String)
    (h : ¬ propString s.formData "start_time" < propString s.formData "end_time") :
    Server.respondSchedule stored newId (SchedulesPage.request s)
        = (stored, .error .validationError)
    ∧ (Server.respondSchedule stored newId (SchedulesPage.request s)).1 = stored
    ∧ SchedulesPage.handleSubmit user s
        (Server.respondSchedule stored newId (SchedulesPage.request s)).2 = s := by
  have key : Server.respondSchedule stored newId (SchedulesPage.request s)
      = (stored, .error .validationError) := by
    simp only [Server.respondSchedule, SchedulesPage.request,
      SchedulesPage.handleSubmitRequest, Option.getD_some, Server.createSchedule,
      getProp_formBody]
    simp only [propString] at h
    cases h1 : getProp s.formData "user_id" <;>
      cases h2 : getProp s.formData "institution_id" <;>
      cases h3 : getProp s.formData "date" <;>
      cases h4 : getProp s.formData "start_time" <;>
      cases h5 : getProp s.formData "end_time" <;>
      cases h6 : getProp s.formData "status" <;>
      simp [jsonString]
    rename_i v1 v2 v3 startTime endTime v6
    simp only [h4, h5, Option.getD_some] at h
    have hnot : ¬ startTime.data < endTime.data := by
      rw [String.lt_iff_toList_lt] at h
      exact h
    simp [hnot]
  refine ⟨key, ?_, ?_⟩
  · rw [key]
  · rw [key]; rfl

/-- Witness for C22: the sample slot runs from 10:00 to 09:00. -/
theorem invalid_schedule_not_created_witness :
    ¬ propString Sample.slotDraft.formData "start_time"
        < propString Sample.slotDraft.formData "end_time"
    ∧ Server.respondSchedule [] "c1" (SchedulesPage.request Sample.slotDraft)
        = ([], .error .validationError) :=
  have h0 : ¬ propString Sample.slotDraft.formData "start_time"
      < propString Sample.slotDraft.formData "end_time" := by
    simp +decide [propString, getProp, Sample.slotDraft]
  ⟨h0, (invalid_schedule_not_created Sample.nurse Sample.slotDraft [] "c1" h0).1⟩

/-- Trimming leaves nothing exactly when every character is white space. -/
theorem trimChars_eq_nil (text : List Char) :
    trimChars text = [] ↔ ∀ c ∈ text, isTrimmable c = true := by
  simp only [trimChars, List.reverse_eq_nil_iff, List.dropWhile_eq_nil_iff, List.mem_reverse]
  constructor
  · intro h c hc
    by_contra hne
    have hd : text.dropWhile isTrimmable ≠ [] := by
      intro h0
      rw [List.dropWhile_eq_nil_iff] at h0
      exact hne (h0 c hc)
    obtain ⟨x, rest, hx⟩ := List.exists_cons_of_ne_nil hd
    have hhead : isTrimmable x = true := h x (by rw [hx]; exact List.mem_cons_self _ _)
    have := List.head_dropWhile_not isTrimmable text hd
    simp only [hx, List.head_cons] at this
    rw [hhead] at this
    exact absurd this (by simp)
  · intro h c hc
    exact h c ((List.dropWhile_sublist _).subset hc)

/-- C29, as stated, fails: with a draft typed and a contact selected, a post that is
answered with an error leaves the draft as it was. -/
theorem failed_send_keeps_draft :
    MessagesPage.sendGuard (Sample.draft "Bonjour") = false
    ∧ MessagesPage.sendMessageEffects (Sample.draft "Bonjour") (.error .notFound)
        = [.request (MessagesPage.sendMessageRequest "u2" "Bonjour"), .toast false]
    ∧ (MessagesPage.sendMessage (Sample.draft "Bonjour") (.error .notFound)).newMessage
        = "Bonjour"
    ∧ (MessagesPage.sendMessage (Sample.draft "Bonjour") (.error .notFound)).newMessage
        ≠ "" := by
  refine ⟨by decide, by decide, by decide, by decide⟩

/-- C29, amended: `sendMessage` sends nothing when the draft is blank or no contact is
selected: for every draft that is empty or made of white space only, and for every state
with no selected contact, no request is issued and the state is unchanged.  Otherwise
exactly one message is posted, with the selected contact's id as recipient_id and the draft
exactly as typed as content; when the post succeeds the draft is cleared and the
conversation is reloaded, when it fails the draft is kept. -/
theorem send_message_behaviour (s : MessagesPage.State) (e : ApiError) :
    (isBlank s.newMessage = true ↔ ∀ c ∈ s.newMessage.toList, isTrimmable c = true)
    ∧ (isBlank s.newMessage = true ∨ s.selectedUser = none →
        ∀ res, MessagesPage.sendMessageEffects s res = []
          ∧ MessagesPage.sendMessage s res = s)
    ∧ (∀ contact, s.selectedUser = some contact → isBlank s.newMessage = false →
        MessagesPage.sendMessageEffects s (.ok ())
            = [.request (MessagesPage.sendMessageRequest contact.id s.newMessage),
               .request (MessagesPage.fetchMessagesRequest contact.id)]
        ∧ MessagesPage.sendMessageEffects s (.error e)
            = [.request (MessagesPage.sendMessageRequest contact.id s.newMessage),
               .toast false]
        ∧ (MessagesPage.sendMessageRequest contact.id s.newMessage).method = "POST"
        ∧ (MessagesPage.sendMessageRequest contact.id s.newMessage).body
            = some [("recipient_id", .str contact.id), ("content", .str s.newMessage)]
        ∧ MessagesPage.sendMessage s (.ok ()) = { s with newMessage := "" }
        ∧ MessagesPage.sendMessage s (.error e) = s) := by
  refine ⟨?_, ?_, ?_⟩
  · simp only [isBlank, List.isEmpty_iff]
    exact trimChars_eq_nil _
  · intro h res
    rcases h with h | h
    · cases hu : s.selectedUser <;>
        simp [MessagesPage.sendMessageEffects, MessagesPage.sendMessage,
          MessagesPage.sendGuard, h, hu]
    · simp [MessagesPage.sendMessageEffects, MessagesPage.sendMessage,
        MessagesPage.sendGuard, h]
  · intro contact hu hb
    refine ⟨?_, ?_, rfl, rfl, ?_, ?_⟩
    · simp [MessagesPage.sendMessageEffects, hu, hb]
    · simp [MessagesPage.sendMessageEffects, hu, hb]
    · simp [MessagesPage.sendMessage, MessagesPage.sendGuard, hu, hb]
    · simp [MessagesPage.sendMessage, MessagesPage.sendGuard, hu, hb]

end SanaCare
